import Mathlib

/-!
Verification of the LP primal/dual formulation layer of the armament
procurement optimiser (Resolution/question.py,
optimisation_militaire/generalisation.py and the surrounding scripts).
Scalars are modelled as rationals; the external solver
scipy.optimize.linprog is modelled as an oracle parameter passed to the
solve functions.
-/

/-- Result object returned by the external LP routine
(scipy.optimize.linprog): a success flag, the solution vector `x` and the
attained objective value `fun` (here `objVal`). -/
structure LPResult where
  success : Bool
  x : List ℚ
  objVal : ℚ
  deriving DecidableEq

/-- The external solver `scipy.optimize.linprog`, taken as an oracle:
it receives the objective coefficients `c`, the inequality matrix `A_ub`
and the right-hand side `b_ub` and produces an `LPResult`. -/
def Linprog : Type := List ℚ → List (List ℚ) → List ℚ → LPResult

/-- `np.transpose` on a rectangular list-of-lists matrix, as used by the
dual constructors: row `j` of the result collects entry `j` of every row
of the input. -/
def npTranspose (a : List (List ℚ)) : List (List ℚ) :=
  (List.range (a.headD []).length).map (fun j => a.map (fun row => row.getD j 0))

/-- The primal problem class of Resolution/question.py: fields as stored
by `__init__`. -/
structure PrimalProblem where
  costs : List ℚ
  constraints : List (List ℚ)
  requirements : List ℚ

/-- `PrimalProblem.__init__`: stores the costs unchanged, the entrywise
negation of the constraint matrix and the entrywise negation of the
requirement vector. -/
def PrimalProblem.init (costs : List ℚ) (constraints : List (List ℚ))
    (requirements : List ℚ) : PrimalProblem :=
  { costs := costs
    constraints := constraints.map (fun row => row.map (fun c => -c))
    requirements := requirements.map (fun r => -r) }

/-- `PrimalProblem.solve`: calls linprog on the stored data; on success
returns `(result.x, result.fun)`, otherwise prints a message and returns
`(None, None)`.  The printed messages are modelled as the second
component of the returned pair. -/
def PrimalProblem.solve (lp : Linprog) (p : PrimalProblem) :
    (Option (List ℚ) × Option ℚ) × List String :=
  let result := lp p.costs p.constraints p.requirements
  if result.success then ((some result.x, some result.objVal), [])
  else ((none, none), ["Pas de solution optimale."])

/-- The dual problem class of Resolution/question.py. -/
structure DualProblem where
  costs : List ℚ
  constraints : List (List ℚ)
  requirements : List ℚ

/-- `DualProblem.__init__`: objective is the entrywise negation of the
requirements, matrix is `np.transpose` of the original constraints,
right-hand side is the original costs. -/
def DualProblem.init (costs : List ℚ) (constraints : List (List ℚ))
    (requirements : List ℚ) : DualProblem :=
  { costs := requirements.map (fun r => -r)
    constraints := npTranspose constraints
    requirements := costs }

/-- `DualProblem.solve`: on success returns `(result.x, -result.fun)`,
otherwise prints a message and returns `(None, None)`. -/
def DualProblem.solve (lp : Linprog) (d : DualProblem) :
    (Option (List ℚ) × Option ℚ) × List String :=
  let result := lp d.costs d.constraints d.requirements
  if result.success then ((some result.x, some (-result.objVal)), [])
  else ((none, none), ["Pas de solution optimale pour le dual."])

/-- The generalized primal class of
optimisation_militaire/generalisation.py (same construction as
`PrimalProblem`). -/
structure GeneralizedPrimalProblem where
  costs : List ℚ
  constraints : List (List ℚ)
  requirements : List ℚ

/-- `GeneralizedPrimalProblem.__init__`. -/
def GeneralizedPrimalProblem.init (costs : List ℚ) (constraints : List (List ℚ))
    (requirements : List ℚ) : GeneralizedPrimalProblem :=
  { costs := costs
    constraints := constraints.map (fun row => row.map (fun c => -c))
    requirements := requirements.map (fun r => -r) }

/-- `GeneralizedPrimalProblem.solve`. -/
def GeneralizedPrimalProblem.solve (lp : Linprog) (p : GeneralizedPrimalProblem) :
    (Option (List ℚ) × Option ℚ) × List String :=
  let result := lp p.costs p.constraints p.requirements
  if result.success then ((some result.x, some result.objVal), [])
  else ((none, none), ["Aucune solution optimale trouvée"])

/-- The generalized dual class of
optimisation_militaire/generalisation.py. -/
structure GeneralizedDualProblem where
  costs : List ℚ
  constraints : List (List ℚ)
  requirements : List ℚ

/-- `GeneralizedDualProblem.__init__`: negated requirements as objective,
a fresh list-of-lists copy of `np.transpose(constraints)` as matrix, the
original costs as right-hand side. -/
def GeneralizedDualProblem.init (costs : List ℚ) (constraints : List (List ℚ))
    (requirements : List ℚ) : GeneralizedDualProblem :=
  { costs := requirements.map (fun r => -r)
    constraints := (npTranspose constraints).map (fun row => row.map (fun v => v))
    requirements := costs }

/-- `GeneralizedDualProblem.solve`. -/
def GeneralizedDualProblem.solve (lp : Linprog) (d : GeneralizedDualProblem) :
    (Option (List ℚ) × Option ℚ) × List String :=
  let result := lp d.costs d.constraints d.requirements
  if result.success then ((some result.x, some (-result.objVal)), [])
  else ((none, none), ["Aucune solution optimale trouvée"])

/-- Entrywise negation commutes with indexing (with default 0) on lists. -/
theorem getD_map_neg (l : List ℚ) (k : ℕ) :
    (l.map (fun v => -v)).getD k 0 = -(l.getD k 0) := by
  rcases lt_or_ge k l.length with h | h
  · rw [List.getD_eq_getElem _ _ (by simpa using h), List.getD_eq_getElem _ _ h,
      List.getElem_map]
  · rw [List.getD_eq_default _ _ (by simpa using h), List.getD_eq_default _ _ h]
    norm_num

/-- Indexing (with default `[]`) commutes with a rowwise map that fixes
the empty list. -/
theorem getD_map_rows {α β : Type} (f : List α → List β) (hf : f [] = [])
    (a : List (List α)) (i : ℕ) : (a.map f).getD i [] = f (a.getD i []) := by
  rcases lt_or_ge i a.length with h | h
  · rw [List.getD_eq_getElem _ _ (by simpa using h), List.getD_eq_getElem _ _ h,
      List.getElem_map]
  · rw [List.getD_eq_default _ _ (by simpa using h), List.getD_eq_default _ _ h, hf]

/-- Row `i` of the entrywise negated matrix, with default `[]`. -/
theorem getD_matrix_neg (a : List (List ℚ)) (i k : ℕ) :
    ((a.map (fun row => row.map (fun c => -c))).getD i []).getD k 0
      = -((a.getD i []).getD k 0) := by
  rw [getD_map_rows (fun row => row.map (fun c => -c)) rfl a i, getD_map_neg]

/-- Entry `(j, i)` of `np.transpose a` is entry `(i, j)` of `a`, provided
`j` is a valid column index of the first row. -/
theorem npTranspose_entry (a : List (List ℚ)) (i j : ℕ)
    (hj : j < (a.headD []).length) :
    ((npTranspose a).getD j []).getD i 0 = (a.getD i []).getD j 0 := by
  have hrow : (npTranspose a).getD j [] = a.map (fun row => row.getD j 0) := by
    rw [npTranspose, List.getD_eq_getElem _ _ (by simpa using hj)]
    simp
  rw [hrow]
  rcases lt_or_ge i a.length with h | h
  · rw [List.getD_eq_getElem _ _ (by simpa using h), List.getD_eq_getElem _ _ h,
      List.getElem_map]
  · rw [List.getD_eq_default _ _ (by simpa using h), List.getD_eq_default _ _ h]
    simp

/-- C1: constructing the primal problem (`PrimalProblem` or
`GeneralizedPrimalProblem`) keeps the objective vector equal to the costs,
makes the inequality matrix the entrywise negation of the constraint
matrix and the right-hand side the entrywise negation of the requirement
vector; the construction is a total pure data transform (no error). -/
theorem primal_construction_canonical (costs requirements : List ℚ)
    (constraints : List (List ℚ)) :
    (PrimalProblem.init costs constraints requirements).costs = costs ∧
    (GeneralizedPrimalProblem.init costs constraints requirements).costs = costs ∧
    (PrimalProblem.init costs constraints requirements).constraints.length
      = constraints.length ∧
    (PrimalProblem.init costs constraints requirements).requirements.length
      = requirements.length ∧
    (∀ i j : ℕ,
      ((PrimalProblem.init costs constraints requirements).constraints.getD i []).length
        = (constraints.getD i []).length ∧
      ((PrimalProblem.init costs constraints requirements).constraints.getD i []).getD j 0
        = -((constraints.getD i []).getD j 0) ∧
      ((GeneralizedPrimalProblem.init costs constraints requirements).constraints.getD i
          []).getD j 0
        = -((constraints.getD i []).getD j 0)) ∧
    (∀ k : ℕ,
      (PrimalProblem.init costs constraints requirements).requirements.getD k 0
        = -(requirements.getD k 0) ∧
      (GeneralizedPrimalProblem.init costs constraints requirements).requirements.getD k 0
        = -(requirements.getD k 0)) := by
  refine ⟨rfl, rfl, by simp [PrimalProblem.init], by simp [PrimalProblem.init], ?_, ?_⟩
  · intro i j
    refine ⟨?_, getD_matrix_neg constraints i j, getD_matrix_neg constraints i j⟩
    show ((constraints.map (fun row => row.map (fun c => -c))).getD i []).length = _
    rw [getD_map_rows (fun row => row.map (fun c => -c)) rfl constraints i,
      List.length_map]
  · intro k
    exact ⟨getD_map_neg requirements k, getD_map_neg requirements k⟩

/-- C2: constructing the dual problem (`DualProblem` or
`GeneralizedDualProblem`) sets the dual objective to the entrywise
negation of the requirements, the dual matrix to the transpose of the
original (non-negated) constraints and the dual right-hand side to the
original costs; and on a successful solve the reported profit is the
negation of the solver's minimized objective value. -/
theorem dual_construction_and_profit_sign (costs requirements : List ℚ)
    (constraints : List (List ℚ)) (lp : Linprog) (i j : ℕ)
    (hj : j < (constraints.headD []).length)
    (hb : (lp (DualProblem.init costs constraints requirements).costs
        (DualProblem.init costs constraints requirements).constraints
        (DualProblem.init costs constraints requirements).requirements).success = true)
    (hg : (lp (GeneralizedDualProblem.init costs constraints requirements).costs
        (GeneralizedDualProblem.init costs constraints requirements).constraints
        (GeneralizedDualProblem.init costs constraints requirements).requirements).success
      = true) :
    (∀ k : ℕ,
      (DualProblem.init costs constraints requirements).costs.getD k 0
        = -(requirements.getD k 0) ∧
      (GeneralizedDualProblem.init costs constraints requirements).costs.getD k 0
        = -(requirements.getD k 0)) ∧
    (DualProblem.init costs constraints requirements).costs.length
      = requirements.length ∧
    ((DualProblem.init costs constraints requirements).constraints.getD j []).getD i 0
      = (constraints.getD i []).getD j 0 ∧
    ((GeneralizedDualProblem.init costs constraints requirements).constraints.getD j
        []).getD i 0
      = (constraints.getD i []).getD j 0 ∧
    (DualProblem.init costs constraints requirements).requirements = costs ∧
    (GeneralizedDualProblem.init costs constraints requirements).requirements = costs ∧
    (DualProblem.solve lp (DualProblem.init costs constraints requirements)).1.2
      = some (-(lp (DualProblem.init costs constraints requirements).costs
          (DualProblem.init costs constraints requirements).constraints
          (DualProblem.init costs constraints requirements).requirements).objVal) ∧
    (GeneralizedDualProblem.solve lp
        (GeneralizedDualProblem.init costs constraints requirements)).1.2
      = some (-(lp (GeneralizedDualProblem.init costs constraints requirements).costs
          (GeneralizedDualProblem.init costs constraints requirements).constraints
          (GeneralizedDualProblem.init costs constraints requirements).requirements).objVal) := by
  have hcopy : (GeneralizedDualProblem.init costs constraints requirements).constraints
      = npTranspose constraints := by
    show (npTranspose constraints).map (fun row => row.map (fun v => v)) = _
    simp
  refine ⟨fun k => ⟨getD_map_neg requirements k, getD_map_neg requirements k⟩,
    by simp [DualProblem.init], npTranspose_entry constraints i j hj, ?_,
    rfl, rfl, ?_, ?_⟩
  · rw [hcopy]
    exact npTranspose_entry constraints i j hj
  · rw [DualProblem.solve]
    simp only [hb]
    rfl
  · rw [GeneralizedDualProblem.solve]
    simp only [hg]
    rfl

/-- Witness for C2 at a concrete instance: costs `[5]`, constraint matrix
`[[2]]`, requirements `[7]`, a solver oracle that reports success with
objective value 3. -/
theorem dual_construction_and_profit_sign_witness :
    ((0 : ℕ) < (([[(2 : ℚ)]] : List (List ℚ)).headD []).length ∧
      (((fun _ _ _ => LPResult.mk true [1] 3) : Linprog)
        (DualProblem.init [5] [[2]] [7]).costs
        (DualProblem.init [5] [[2]] [7]).constraints
        (DualProblem.init [5] [[2]] [7]).requirements).success = true) ∧
    ((∀ k : ℕ,
      (DualProblem.init [5] [[2]] [7]).costs.getD k 0 = -(([7] : List ℚ).getD k 0) ∧
      (GeneralizedDualProblem.init [5] [[2]] [7]).costs.getD k 0
        = -(([7] : List ℚ).getD k 0)) ∧
    (DualProblem.init [5] [[2]] [7]).costs.length = ([7] : List ℚ).length ∧
    ((DualProblem.init [5] [[2]] [7]).constraints.getD 0 []).getD 0 0
      = (([[2]] : List (List ℚ)).getD 0 []).getD 0 0 ∧
    ((GeneralizedDualProblem.init [5] [[2]] [7]).constraints.getD 0 []).getD 0 0
      = (([[2]] : List (List ℚ)).getD 0 []).getD 0 0 ∧
    (DualProblem.init [5] [[2]] [7]).requirements = [5] ∧
    (GeneralizedDualProblem.init [5] [[2]] [7]).requirements = [5] ∧
    (DualProblem.solve (fun _ _ _ => LPResult.mk true [1] 3)
        (DualProblem.init [5] [[2]] [7])).1.2
      = some (-((fun _ _ _ => LPResult.mk true [1] 3) (DualProblem.init [5] [[2]] [7]).costs
          (DualProblem.init [5] [[2]] [7]).constraints
          (DualProblem.init [5] [[2]] [7]).requirements : LPResult).objVal) ∧
    (GeneralizedDualProblem.solve (fun _ _ _ => LPResult.mk true [1] 3)
        (GeneralizedDualProblem.init [5] [[2]] [7])).1.2
      = some (-((fun _ _ _ => LPResult.mk true [1] 3)
          (GeneralizedDualProblem.init [5] [[2]] [7]).costs
          (GeneralizedDualProblem.init [5] [[2]] [7]).constraints
          (GeneralizedDualProblem.init [5] [[2]] [7]).requirements : LPResult).objVal)) :=
  ⟨⟨by decide, rfl⟩,
    dual_construction_and_profit_sign [5] [7] [[2]]
      (fun _ _ _ => LPResult.mk true [1] 3) 0 0 (by decide) rfl rfl⟩

/-- C4: whenever the external solver reports failure, every solve variant
returns the pair `(None, None)` (no exception, no numeric zero) and emits
a human-readable diagnostic message at the point of detection. -/
theorem solve_failure_returns_none_pair (costs requirements : List ℚ)
    (constraints : List (List ℚ)) (lp : Linprog)
    (h1 : (lp (PrimalProblem.init costs constraints requirements).costs
        (PrimalProblem.init costs constraints requirements).constraints
        (PrimalProblem.init costs constraints requirements).requirements).success = false)
    (h2 : (lp (DualProblem.init costs constraints requirements).costs
        (DualProblem.init costs constraints requirements).constraints
        (DualProblem.init costs constraints requirements).requirements).success = false)
    (h3 : (lp (GeneralizedPrimalProblem.init costs constraints requirements).costs
        (GeneralizedPrimalProblem.init costs constraints requirements).constraints
        (GeneralizedPrimalProblem.init costs constraints requirements).requirements).success
      = false)
    (h4 : (lp (GeneralizedDualProblem.init costs constraints requirements).costs
        (GeneralizedDualProblem.init costs constraints requirements).constraints
        (GeneralizedDualProblem.init costs constraints requirements).requirements).success
      = false) :
    PrimalProblem.solve lp (PrimalProblem.init costs constraints requirements)
      = ((none, none), ["Pas de solution optimale."]) ∧
    DualProblem.solve lp (DualProblem.init costs constraints requirements)
      = ((none, none), ["Pas de solution optimale pour le dual."]) ∧
    GeneralizedPrimalProblem.solve lp
        (GeneralizedPrimalProblem.init costs constraints requirements)
      = ((none, none), ["Aucune solution optimale trouvée"]) ∧
    GeneralizedDualProblem.solve lp
        (GeneralizedDualProblem.init costs constraints requirements)
      = ((none, none), ["Aucune solution optimale trouvée"]) ∧
    (PrimalProblem.solve lp (PrimalProblem.init costs constraints requirements)).2 ≠ [] ∧
    (DualProblem.solve lp (DualProblem.init costs constraints requirements)).2 ≠ [] ∧
    (GeneralizedPrimalProblem.solve lp
        (GeneralizedPrimalProblem.init costs constraints requirements)).2 ≠ [] ∧
    (GeneralizedDualProblem.solve lp
        (GeneralizedDualProblem.init costs constraints requirements)).2 ≠ [] := by
  have e1 : PrimalProblem.solve lp (PrimalProblem.init costs constraints requirements)
      = ((none, none), ["Pas de solution optimale."]) := by
    rw [PrimalProblem.solve]
    simp only [h1]
    rfl
  have e2 : DualProblem.solve lp (DualProblem.init costs constraints requirements)
      = ((none, none), ["Pas de solution optimale pour le dual."]) := by
    rw [DualProblem.solve]
    simp only [h2]
    rfl
  have e3 : GeneralizedPrimalProblem.solve lp
      (GeneralizedPrimalProblem.init costs constraints requirements)
      = ((none, none), ["Aucune solution optimale trouvée"]) := by
    rw [GeneralizedPrimalProblem.solve]
    simp only [h3]
    rfl
  have e4 : GeneralizedDualProblem.solve lp
      (GeneralizedDualProblem.init costs constraints requirements)
      = ((none, none), ["Aucune solution optimale trouvée"]) := by
    rw [GeneralizedDualProblem.solve]
    simp only [h4]
    rfl
  refine ⟨e1, e2, e3, e4, ?_, ?_, ?_, ?_⟩ <;> simp [e1, e2, e3, e4]

/-- Witness for C4: an oracle that always reports failure, on the
concrete data costs `[1]`, constraints `[[1]]`, requirements `[1]`. -/
theorem solve_failure_returns_none_pair_witness :
    PrimalProblem.solve (fun _ _ _ => LPResult.mk false [] 0)
        (PrimalProblem.init [1] [[1]] [1])
      = ((none, none), ["Pas de solution optimale."]) ∧
    DualProblem.solve (fun _ _ _ => LPResult.mk false [] 0)
        (DualProblem.init [1] [[1]] [1])
      = ((none, none), ["Pas de solution optimale pour le dual."]) ∧
    GeneralizedPrimalProblem.solve (fun _ _ _ => LPResult.mk false [] 0)
        (GeneralizedPrimalProblem.init [1] [[1]] [1])
      = ((none, none), ["Aucune solution optimale trouvée"]) ∧
    GeneralizedDualProblem.solve (fun _ _ _ => LPResult.mk false [] 0)
        (GeneralizedDualProblem.init [1] [[1]] [1])
      = ((none, none), ["Aucune solution optimale trouvée"]) ∧
    (PrimalProblem.solve (fun _ _ _ => LPResult.mk false [] 0)
        (PrimalProblem.init [1] [[1]] [1])).2 ≠ [] ∧
    (DualProblem.solve (fun _ _ _ => LPResult.mk false [] 0)
        (DualProblem.init [1] [[1]] [1])).2 ≠ [] ∧
    (GeneralizedPrimalProblem.solve (fun _ _ _ => LPResult.mk false [] 0)
        (GeneralizedPrimalProblem.init [1] [[1]] [1])).2 ≠ [] ∧
    (GeneralizedDualProblem.solve (fun _ _ _ => LPResult.mk false [] 0)
        (GeneralizedDualProblem.init [1] [[1]] [1])).2 ≠ [] :=
  solve_failure_returns_none_pair [1] [1] [[1]]
    (fun _ _ _ => LPResult.mk false [] 0) rfl rfl rfl rfl

/-- Reference-level view of a constructed problem object: the three
fields hold references (indices) into a store of Python list objects. -/
structure PyProblemRefs where
  costsF : ℕ
  constraintsF : List ℕ
  requirementsF : ℕ

/-- Store model of `PrimalProblem.__init__` / mutation analysis: the
store `σ` is the heap of Python list objects (indexed by allocation
order); the arguments are references.  `self.costs` aliases the `costs`
argument; the negated rows and the negated requirement vector are
freshly appended cells. -/
def PrimalProblem.initStore (σ : List (List ℚ)) (costs : ℕ) (constraints : List ℕ)
    (requirements : ℕ) : List (List ℚ) × PyProblemRefs :=
  let negRows := constraints.map (fun r => (σ.getD r []).map (fun v => -v))
  let rowRefs := (List.range negRows.length).map (fun k => σ.length + k)
  let negReq := (σ.getD requirements []).map (fun v => -v)
  ((σ ++ negRows) ++ [negReq], ⟨costs, rowRefs, (σ ++ negRows).length⟩)

/-- Store model of `DualProblem.__init__`: allocates the negated
requirement vector (as `self.costs`) and the transposed rows;
`self.requirements` aliases the `costs` argument. -/
def DualProblem.initStore (σ : List (List ℚ)) (costs : ℕ) (constraints : List ℕ)
    (requirements : ℕ) : List (List ℚ) × PyProblemRefs :=
  let negReq := (σ.getD requirements []).map (fun v => -v)
  let tRows := npTranspose (constraints.map (fun r => σ.getD r []))
  ((σ ++ [negReq]) ++ tRows,
    ⟨σ.length, (List.range tRows.length).map (fun k => (σ ++ [negReq]).length + k), costs⟩)

/-- Store model of `GeneralizedPrimalProblem.__init__` (same allocation
behaviour as the basic primal constructor). -/
def GeneralizedPrimalProblem.initStore (σ : List (List ℚ)) (costs : ℕ)
    (constraints : List ℕ) (requirements : ℕ) : List (List ℚ) × PyProblemRefs :=
  let negRows := constraints.map (fun r => (σ.getD r []).map (fun v => -v))
  let rowRefs := (List.range negRows.length).map (fun k => σ.length + k)
  let negReq := (σ.getD requirements []).map (fun v => -v)
  ((σ ++ negRows) ++ [negReq], ⟨costs, rowRefs, (σ ++ negRows).length⟩)

/-- Store model of `GeneralizedDualProblem.__init__`: like the basic dual
constructor, with the stored matrix rows being the fresh list-of-lists
copy of the transposed array. -/
def GeneralizedDualProblem.initStore (σ : List (List ℚ)) (costs : ℕ)
    (constraints : List ℕ) (requirements : ℕ) : List (List ℚ) × PyProblemRefs :=
  let negReq := (σ.getD requirements []).map (fun v => -v)
  let tRows := (npTranspose (constraints.map (fun r => σ.getD r []))).map
    (fun row => row.map (fun v => v))
  ((σ ++ [negReq]) ++ tRows,
    ⟨σ.length, (List.range tRows.length).map (fun k => (σ ++ [negReq]).length + k), costs⟩)

/-- Cells already allocated are untouched by an append-only extension. -/
theorem getD_append_left_of_lt (σ ext : List (List ℚ)) (k : ℕ) (hk : k < σ.length) :
    (σ ++ ext).getD k [] = σ.getD k [] := by
  rw [List.getD_eq_getElem _ _ (by simpa using lt_of_lt_of_le hk (by simp)),
    List.getD_eq_getElem _ _ hk, List.getElem_append_left hk]

/-- C10: none of the four constructors writes into the caller-supplied
lists — every store cell allocated before the call is element-wise
unchanged afterwards — and the negated (or transposed) structures the
constructors store are freshly allocated cells, while the untransformed
fields alias the caller's references. -/
theorem constructors_do_not_mutate_arguments (σ : List (List ℚ)) (c r : ℕ)
    (rows : List ℕ) (k : ℕ) (hk : k < σ.length) :
    (PrimalProblem.initStore σ c rows r).1.getD k [] = σ.getD k [] ∧
    (DualProblem.initStore σ c rows r).1.getD k [] = σ.getD k [] ∧
    (GeneralizedPrimalProblem.initStore σ c rows r).1.getD k [] = σ.getD k [] ∧
    (GeneralizedDualProblem.initStore σ c rows r).1.getD k [] = σ.getD k [] ∧
    (∀ f ∈ (PrimalProblem.initStore σ c rows r).2.constraintsF, σ.length ≤ f) ∧
    σ.length ≤ (PrimalProblem.initStore σ c rows r).2.requirementsF ∧
    (PrimalProblem.initStore σ c rows r).2.costsF = c ∧
    σ.length ≤ (DualProblem.initStore σ c rows r).2.costsF ∧
    (∀ f ∈ (DualProblem.initStore σ c rows r).2.constraintsF, σ.length ≤ f) ∧
    (DualProblem.initStore σ c rows r).2.requirementsF = c ∧
    (∀ f ∈ (GeneralizedPrimalProblem.initStore σ c rows r).2.constraintsF, σ.length ≤ f) ∧
    σ.length ≤ (GeneralizedPrimalProblem.initStore σ c rows r).2.requirementsF ∧
    (GeneralizedPrimalProblem.initStore σ c rows r).2.costsF = c ∧
    σ.length ≤ (GeneralizedDualProblem.initStore σ c rows r).2.costsF ∧
    (∀ f ∈ (GeneralizedDualProblem.initStore σ c rows r).2.constraintsF, σ.length ≤ f) ∧
    (GeneralizedDualProblem.initStore σ c rows r).2.requirementsF = c := by
  refine ⟨?_, ?_, ?_, ?_, ?_, ?_, rfl, le_refl _, ?_, rfl, ?_, ?_, rfl, le_refl _, ?_, rfl⟩
  · rw [PrimalProblem.initStore]
    simp only [List.append_assoc]
    exact getD_append_left_of_lt σ _ k hk
  · rw [DualProblem.initStore]
    simp only [List.append_assoc]
    exact getD_append_left_of_lt σ _ k hk
  · rw [GeneralizedPrimalProblem.initStore]
    simp only [List.append_assoc]
    exact getD_append_left_of_lt σ _ k hk
  · rw [GeneralizedDualProblem.initStore]
    simp only [List.append_assoc]
    exact getD_append_left_of_lt σ _ k hk
  · intro f hf
    rw [PrimalProblem.initStore] at hf
    simp only [List.mem_map, List.mem_range] at hf
    obtain ⟨m, _, rfl⟩ := hf
    exact Nat.le_add_right _ _
  · show σ.length ≤ (σ ++ _).length
    simp
  · intro f hf
    rw [DualProblem.initStore] at hf
    simp only [List.mem_map, List.mem_range] at hf
    obtain ⟨m, _, rfl⟩ := hf
    calc σ.length ≤ (σ ++ _).length := by simp
      _ ≤ _ := Nat.le_add_right _ _
  · intro f hf
    rw [GeneralizedPrimalProblem.initStore] at hf
    simp only [List.mem_map, List.mem_range] at hf
    obtain ⟨m, _, rfl⟩ := hf
    exact Nat.le_add_right _ _
  · show σ.length ≤ (σ ++ _).length
    simp
  · intro f hf
    rw [GeneralizedDualProblem.initStore] at hf
    simp only [List.mem_map, List.mem_range] at hf
    obtain ⟨m, _, rfl⟩ := hf
    calc σ.length ≤ (σ ++ _).length := by simp
      _ ≤ _ := Nat.le_add_right _ _

/-- Witness for C10: a one-cell store holding the list `[1]`, with all
three arguments referring to cell 0. -/
theorem constructors_do_not_mutate_arguments_witness :
    (PrimalProblem.initStore [[1]] 0 [0] 0).1.getD 0 []
        = ([[1]] : List (List ℚ)).getD 0 [] ∧
    (DualProblem.initStore [[1]] 0 [0] 0).1.getD 0 []
        = ([[1]] : List (List ℚ)).getD 0 [] ∧
    (GeneralizedPrimalProblem.initStore [[1]] 0 [0] 0).1.getD 0 []
        = ([[1]] : List (List ℚ)).getD 0 [] ∧
    (GeneralizedDualProblem.initStore [[1]] 0 [0] 0).1.getD 0 []
        = ([[1]] : List (List ℚ)).getD 0 [] ∧
    (∀ f ∈ (PrimalProblem.initStore [[1]] 0 [0] 0).2.constraintsF,
      ([[1]] : List (List ℚ)).length ≤ f) ∧
    ([[1]] : List (List ℚ)).length
      ≤ (PrimalProblem.initStore [[1]] 0 [0] 0).2.requirementsF ∧
    (PrimalProblem.initStore [[1]] 0 [0] 0).2.costsF = 0 ∧
    ([[1]] : List (List ℚ)).length ≤ (DualProblem.initStore [[1]] 0 [0] 0).2.costsF ∧
    (∀ f ∈ (DualProblem.initStore [[1]] 0 [0] 0).2.constraintsF,
      ([[1]] : List (List ℚ)).length ≤ f) ∧
    (DualProblem.initStore [[1]] 0 [0] 0).2.requirementsF = 0 ∧
    (∀ f ∈ (GeneralizedPrimalProblem.initStore [[1]] 0 [0] 0).2.constraintsF,
      ([[1]] : List (List ℚ)).length ≤ f) ∧
    ([[1]] : List (List ℚ)).length
      ≤ (GeneralizedPrimalProblem.initStore [[1]] 0 [0] 0).2.requirementsF ∧
    (GeneralizedPrimalProblem.initStore [[1]] 0 [0] 0).2.costsF = 0 ∧
    ([[1]] : List (List ℚ)).length
      ≤ (GeneralizedDualProblem.initStore [[1]] 0 [0] 0).2.costsF ∧
    (∀ f ∈ (GeneralizedDualProblem.initStore [[1]] 0 [0] 0).2.constraintsF,
      ([[1]] : List (List ℚ)).length ≤ f) ∧
    (GeneralizedDualProblem.initStore [[1]] 0 [0] 0).2.requirementsF = 0 :=
  constructors_do_not_mutate_arguments [[1]] 0 0 [0] 0 (by decide)

/-- The fixed weapon-name list of `display_dual_results`
(Resolution/app.py). -/
def armes : List String := ["fusils", "Grenades", "Chars", "Mitrailleuses", "bazookas"]

/-- The per-weapon benefit computed by `display_dual_results`
(Resolution/app.py): `price * 100000 if arme == "fusils" else
price * 200000 if arme == "Grenades" else 0`. -/
def display_dual_benefit (arme : String) (price : ℚ) : ℚ :=
  if arme = "fusils" then price * 100000
  else if arme = "Grenades" then price * 200000 else 0

/-- The rows of the fixed dual display table: weapon name with its
computed benefit, iterating `zip(armes, prices)`. -/
def display_dual_results_rows (prices : List ℚ) : List (String × ℚ) :=
  (armes.zip prices).map (fun ap => (ap.1, display_dual_benefit ap.1 ap.2))

/-- The rows of the generalized dual display
(`display_dual_solution`, optimisation_militaire/app.py): it iterates
`zip(armes, prices, requirements)` and computes `profit = price * req`. -/
def display_dual_solution_rows (names : List String) (prices requirements : List ℚ) :
    List (String × ℚ) :=
  (names.zip (prices.zip requirements)).map (fun x => (x.1, x.2.1 * x.2.2))

/-- Indexing a zipped pair of lists within bounds. -/
theorem zip_getD {α β : Type} (l₁ : List α) (l₂ : List β) (k : ℕ) (d₁ : α) (d₂ : β)
    (h₁ : k < l₁.length) (h₂ : k < l₂.length) :
    (l₁.zip l₂).getD k (d₁, d₂) = (l₁.getD k d₁, l₂.getD k d₂) := by
  have hz : k < (l₁.zip l₂).length := by
    rw [List.length_zip]
    exact lt_min h₁ h₂
  rw [List.getD_eq_getElem _ _ hz, List.getD_eq_getElem _ _ h₁,
    List.getD_eq_getElem _ _ h₂, List.getElem_zip]

/-- Indexing a map over a zipped pair of lists within bounds. -/
theorem zip_map_getD {α β γ : Type} (f : α × β → γ) (l₁ : List α) (l₂ : List β)
    (k : ℕ) (d₁ : α) (d₂ : β) (dc : γ) (h₁ : k < l₁.length) (h₂ : k < l₂.length) :
    ((l₁.zip l₂).map f).getD k dc = f (l₁.getD k d₁, l₂.getD k d₂) := by
  have hz : k < (l₁.zip l₂).length := by
    rw [List.length_zip]
    exact lt_min h₁ h₂
  rw [List.getD_eq_getElem _ _ (by simpa using hz), List.getElem_map, List.getElem_zip,
    List.getD_eq_getElem _ _ h₁, List.getD_eq_getElem _ _ h₂]

/-- C6: the fixed dual display computes weapon `k`'s benefit as the unit
price times an ad hoc scalar — 100000 for "fusils" (row 0), 200000 for
"Grenades" (row 1), zero for every other weapon — rather than price times
the corresponding requirement entry (witnessed by "Chars": the displayed
benefit is 0 even though price times requirement is 100 there), whereas
the generalized display computes every row's benefit uniformly as
`price * requirement`. -/
theorem ad_hoc_dual_display_benefit (prices requirements : List ℚ)
    (names : List String) (price : ℚ) (arme : String) (k : ℕ)
    (hk5 : k < 5) (hkp : k < prices.length) (hn : k < names.length)
    (hr : k < requirements.length)
    (hno : arme ∉ (["fusils", "Grenades"] : List String)) :
    (display_dual_results_rows prices).getD k ("", 0)
      = (armes.getD k "",
        if k = 0 then (prices.getD k 0) * 100000
        else if k = 1 then (prices.getD k 0) * 200000 else 0) ∧
    display_dual_benefit arme price = 0 ∧
    display_dual_benefit "Chars" 1 = 0 ∧ ¬((1 : ℚ) * 100 = 0) ∧
    (display_dual_solution_rows names prices requirements).getD k ("", 0)
      = (names.getD k "", (prices.getD k 0) * (requirements.getD k 0)) := by
  have harm : armes.length = 5 := rfl
  refine ⟨?_, ?_, by decide, by norm_num, ?_⟩
  · have h0 : (display_dual_results_rows prices).getD k ("", 0)
        = (armes.getD k "", display_dual_benefit (armes.getD k "") (prices.getD k 0)) := by
      rw [display_dual_results_rows]
      exact zip_map_getD (fun ap : String × ℚ => (ap.1, display_dual_benefit ap.1 ap.2))
        armes prices k "" 0 ("", 0) (by rw [harm]; exact hk5) hkp
    rw [h0]
    interval_cases k <;> simp [armes, display_dual_benefit]
  · rw [display_dual_benefit]
    simp only [List.mem_cons, List.mem_singleton] at hno
    push_neg at hno
    rw [if_neg hno.1, if_neg hno.2.1]
  · rw [display_dual_solution_rows,
      zip_map_getD (fun x : String × ℚ × ℚ => (x.1, x.2.1 * x.2.2))
        names (prices.zip requirements) k "" (0, 0) ("", 0) hn
        (by rw [List.length_zip]; exact lt_min hkp hr),
      zip_getD prices requirements k 0 0 hkp hr]

/-- Witness for C6 at row 2 ("Chars") with concrete prices and
requirements. -/
theorem ad_hoc_dual_display_benefit_witness :
    (display_dual_results_rows [1, 2, 3, 4, 5]).getD 2 ("", 0)
      = (armes.getD 2 "",
        if 2 = 0 then (([1, 2, 3, 4, 5] : List ℚ).getD 2 0) * 100000
        else if 2 = 1 then (([1, 2, 3, 4, 5] : List ℚ).getD 2 0) * 200000 else 0) ∧
    display_dual_benefit "Chars" 1 = 0 ∧
    display_dual_benefit "Chars" 1 = 0 ∧ ¬((1 : ℚ) * 100 = 0) ∧
    (display_dual_solution_rows ["a", "b", "c"] [1, 2, 3, 4, 5]
        [100000, 200000, 100, 400, 400]).getD 2 ("", 0)
      = ((["a", "b", "c"] : List String).getD 2 "",
        (([1, 2, 3, 4, 5] : List ℚ).getD 2 0)
          * (([100000, 200000, 100, 400, 400] : List ℚ).getD 2 0)) :=
  ad_hoc_dual_display_benefit [1, 2, 3, 4, 5] [100000, 200000, 100, 400, 400]
    ["a", "b", "c"] 1 "Chars" 2 (by decide) (by decide) (by decide) (by decide)
    (by decide)

/-- Dot product of two rational vectors of the same finite dimension. -/
def dotF {k : ℕ} (u v : Fin k → ℚ) : ℚ := ∑ i, u i * v i

/-- Interpretation of a Python list of floats as a vector (entries beyond
the list are 0). -/
def vecF (n : ℕ) (l : List ℚ) : Fin n → ℚ := fun i => l.getD i 0

/-- Interpretation of a Python list-of-lists as a matrix. -/
def matF (m n : ℕ) (a : List (List ℚ)) : Fin m → Fin n → ℚ :=
  fun i j => (a.getD i []).getD j 0

/-- Feasibility for the solver's canonical form
`A x ≤ b` with the default bound `x ≥ 0` of scipy linprog. -/
def SolverFeasible {m n : ℕ} (a : Fin m → Fin n → ℚ) (b : Fin m → ℚ)
    (x : Fin n → ℚ) : Prop :=
  (∀ j, 0 ≤ x j) ∧ ∀ i, dotF (a i) x ≤ b i

/-- Exact optimality for the solver's canonical minimization
`min c·x  s.t.  A x ≤ b, x ≥ 0`. -/
def SolverOptimal {m n : ℕ} (c : Fin n → ℚ) (a : Fin m → Fin n → ℚ)
    (b : Fin m → ℚ) (x : Fin n → ℚ) : Prop :=
  SolverFeasible a b x ∧ ∀ y, SolverFeasible a b y → dotF c x ≤ dotF c y

/-- Feasibility for the natural primal form `A x ≥ b, x ≥ 0`. -/
def PrimalFeasible {m n : ℕ} (a : Fin m → Fin n → ℚ) (b : Fin m → ℚ)
    (x : Fin n → ℚ) : Prop :=
  (∀ j, 0 ≤ x j) ∧ ∀ i, b i ≤ dotF (a i) x

/-- Optimality for the natural primal `min c·x  s.t.  A x ≥ b, x ≥ 0`. -/
def PrimalOptimal {m n : ℕ} (c : Fin n → ℚ) (a : Fin m → Fin n → ℚ)
    (b : Fin m → ℚ) (x : Fin n → ℚ) : Prop :=
  PrimalFeasible a b x ∧ ∀ y, PrimalFeasible a b y → dotF c x ≤ dotF c y

/-- Feasibility for the dual form `Aᵗ y ≤ c, y ≥ 0`. -/
def DualFeasible {m n : ℕ} (a : Fin m → Fin n → ℚ) (c : Fin n → ℚ)
    (y : Fin m → ℚ) : Prop :=
  (∀ i, 0 ≤ y i) ∧ ∀ j, dotF (fun i => a i j) y ≤ c j

/-- Optimality for the dual `max b·y  s.t.  Aᵗ y ≤ c, y ≥ 0`. -/
def DualOptimal {m n : ℕ} (b : Fin m → ℚ) (a : Fin m → Fin n → ℚ)
    (c : Fin n → ℚ) (y : Fin m → ℚ) : Prop :=
  DualFeasible a c y ∧ ∀ z, DualFeasible a c z → dotF b z ≤ dotF b y

/-- The canonical solver form built by the primal constructors (negated
matrix and right-hand side) is feasible exactly when the natural `≥` form
is. -/
theorem solverFeasible_neg_iff {m n : ℕ} (a : Fin m → Fin n → ℚ) (b : Fin m → ℚ)
    (x : Fin n → ℚ) :
    SolverFeasible (fun i j => -(a i j)) (fun i => -(b i)) x ↔ PrimalFeasible a b x := by
  unfold SolverFeasible PrimalFeasible
  have h : ∀ i, dotF (fun j => -(a i j)) x = -(dotF (a i) x) := by
    intro i
    unfold dotF
    rw [← Finset.sum_neg_distrib]
    exact Finset.sum_congr rfl (fun j _ => by ring)
  constructor
  · rintro ⟨h0, hi⟩
    refine ⟨h0, fun i => ?_⟩
    have hdi := hi i
    dsimp only at hdi
    rw [h i] at hdi
    linarith
  · rintro ⟨h0, hi⟩
    refine ⟨h0, fun i => ?_⟩
    dsimp only
    rw [h i]
    have hdi := hi i
    linarith

/-- Weak LP duality for the natural primal/dual pair. -/
theorem weak_duality {m n : ℕ} (a : Fin m → Fin n → ℚ) (b : Fin m → ℚ)
    (c : Fin n → ℚ) (x : Fin n → ℚ) (y : Fin m → ℚ)
    (hx : PrimalFeasible a b x) (hy : DualFeasible a c y) :
    dotF b y ≤ dotF c x := by
  obtain ⟨hx0, hxA⟩ := hx
  obtain ⟨hy0, hyA⟩ := hy
  have step1 : dotF b y ≤ ∑ i, dotF (a i) x * y i := by
    unfold dotF
    refine Finset.sum_le_sum (fun i _ => ?_)
    exact mul_le_mul_of_nonneg_right (hxA i) (hy0 i)
  have swap : ∑ i, dotF (a i) x * y i = ∑ j, dotF (fun i => a i j) y * x j := by
    unfold dotF
    calc ∑ i, (∑ j, a i j * x j) * y i
        = ∑ i, ∑ j, a i j * x j * y i := by
          refine Finset.sum_congr rfl (fun i _ => ?_)
          rw [Finset.sum_mul]
      _ = ∑ j, ∑ i, a i j * x j * y i := Finset.sum_comm
      _ = ∑ j, (∑ i, (fun i => a i j) i * y i) * x j := by
          refine Finset.sum_congr rfl (fun j _ => ?_)
          rw [Finset.sum_mul]
          exact Finset.sum_congr rfl (fun i _ => by ring)
  have step2 : ∑ j, dotF (fun i => a i j) y * x j ≤ dotF c x := by
    unfold dotF
    refine Finset.sum_le_sum (fun j _ => ?_)
    exact mul_le_mul_of_nonneg_right (hyA j) (hx0 j)
  calc dotF b y ≤ ∑ i, dotF (a i) x * y i := step1
    _ = ∑ j, dotF (fun i => a i j) y * x j := swap
    _ ≤ dotF c x := step2

/-- A dual-feasible point with matching objective value certifies primal
optimality. -/
theorem cert_primal_optimal {m n : ℕ} (a : Fin m → Fin n → ℚ) (b : Fin m → ℚ)
    (c : Fin n → ℚ) (x : Fin n → ℚ) (y : Fin m → ℚ)
    (hx : PrimalFeasible a b x) (hy : DualFeasible a c y)
    (heq : dotF c x = dotF b y) : PrimalOptimal c a b x := by
  refine ⟨hx, fun z hz => ?_⟩
  calc dotF c x = dotF b y := heq
    _ ≤ dotF c z := weak_duality a b c z y hz hy

/-- A primal-feasible point with matching objective value certifies dual
optimality. -/
theorem cert_dual_optimal {m n : ℕ} (a : Fin m → Fin n → ℚ) (b : Fin m → ℚ)
    (c : Fin n → ℚ) (x : Fin n → ℚ) (y : Fin m → ℚ)
    (hx : PrimalFeasible a b x) (hy : DualFeasible a c y)
    (heq : dotF c x = dotF b y) : DualOptimal b a c y := by
  refine ⟨hy, fun z hz => ?_⟩
  calc dotF b z ≤ dotF c x := weak_duality a b c x z hx hz
    _ = dotF b y := heq

/-- Index type of the Fourier–Motzkin reduced system: rows with zero
leading coefficient, plus one combined row per (positive, negative)
pair of leading coefficients. -/
abbrev FmIdx {n : ℕ} {ι : Type} (M : ι → Fin (n + 1) → ℚ) : Type :=
  {i : ι // M i 0 = 0} ⊕ ({i : ι // 0 < M i 0} × {i : ι // M i 0 < 0})

/-- Coefficient rows of the Fourier–Motzkin reduced system (the first
variable is eliminated). -/
def fmM {n : ℕ} {ι : Type} (M : ι → Fin (n + 1) → ℚ) : FmIdx M → Fin n → ℚ
  | Sum.inl z, j => M z.1 j.succ
  | Sum.inr pq, j =>
      (M pq.1.1 0)⁻¹ * M pq.1.1 j.succ + (-(M pq.2.1 0)⁻¹) * M pq.2.1 j.succ

/-- Right-hand sides of the Fourier–Motzkin reduced system. -/
def fmD {n : ℕ} {ι : Type} (M : ι → Fin (n + 1) → ℚ) (d : ι → ℚ) : FmIdx M → ℚ
  | Sum.inl z => d z.1
  | Sum.inr pq => (M pq.1.1 0)⁻¹ * d pq.1.1 + (-(M pq.2.1 0)⁻¹) * d pq.2.1

/-- Pulling a multiplier vector of the reduced system back to the
original rows. -/
def fmPull {n : ℕ} {ι : Type} [Fintype ι] (M : ι → Fin (n + 1) → ℚ)
    (u' : FmIdx M → ℚ) : ι → ℚ :=
  fun i =>
    (if h : M i 0 = 0 then u' (Sum.inl ⟨i, h⟩) else 0)
    + (if h : 0 < M i 0 then
        ∑ q : {k : ι // M k 0 < 0}, u' (Sum.inr (⟨i, h⟩, q)) * (M i 0)⁻¹ else 0)
    + (if h : M i 0 < 0 then
        ∑ p : {k : ι // 0 < M k 0}, u' (Sum.inr (p, ⟨i, h⟩)) * (-(M i 0)⁻¹) else 0)

/-- Summing a guarded family over the whole index equals summing the
unguarded family over the subtype. -/
theorem sum_dite_subtype {ι : Type} [Fintype ι] (p : ι → Prop) [DecidablePred p]
    (f : (i : ι) → p i → ℚ) (w : ι → ℚ) :
    ∑ i, (if h : p i then f i h else 0) * w i = ∑ z : Subtype p, f z.1 z.2 * w z.1 := by
  have hsplit := Finset.sum_filter_add_sum_filter_not Finset.univ p
    (fun i => (if h : p i then f i h else 0) * w i)
  have hzero : ∑ i ∈ Finset.univ.filter (fun i => ¬ p i),
      (if h : p i then f i h else 0) * w i = 0 := by
    refine Finset.sum_eq_zero (fun i hi => ?_)
    rw [Finset.mem_filter] at hi
    rw [dif_neg hi.2, zero_mul]
  have hfil : ∑ i ∈ Finset.univ.filter p, (if h : p i then f i h else 0) * w i
      = ∑ z : Subtype p, (if h : p z.1 then f z.1 h else 0) * w z.1 :=
    Finset.sum_subtype _ (by simp) _
  calc ∑ i, (if h : p i then f i h else 0) * w i
      = ∑ i ∈ Finset.univ.filter p, (if h : p i then f i h else 0) * w i := by
        rw [← hsplit, hzero, add_zero]
    _ = ∑ z : Subtype p, (if h : p z.1 then f z.1 h else 0) * w z.1 := hfil
    _ = ∑ z : Subtype p, f z.1 z.2 * w z.1 :=
        Finset.sum_congr rfl (fun z _ => by rw [dif_pos z.2])

/-- The pulled-back multipliers weight any vector `w` on original rows
exactly as the reduced multipliers weight the corresponding combined
values. -/
theorem fm_transfer {n : ℕ} {ι : Type} [Fintype ι] [DecidableEq ι]
    (M : ι → Fin (n + 1) → ℚ) (u' : FmIdx M → ℚ) (w : ι → ℚ) :
    ∑ i, fmPull M u' i * w i
      = (∑ z : {i : ι // M i 0 = 0}, u' (Sum.inl z) * w z.1)
        + ∑ pq : {i : ι // 0 < M i 0} × {i : ι // M i 0 < 0},
            u' (Sum.inr pq)
              * ((M pq.1.1 0)⁻¹ * w pq.1.1 + (-(M pq.2.1 0)⁻¹) * w pq.2.1) := by
  have hsplit : ∑ i, fmPull M u' i * w i
      = (∑ i, (if h : M i 0 = 0 then u' (Sum.inl ⟨i, h⟩) else 0) * w i)
        + (∑ i, (if h : 0 < M i 0 then
            ∑ q : {k : ι // M k 0 < 0}, u' (Sum.inr (⟨i, h⟩, q)) * (M i 0)⁻¹ else 0) * w i)
        + (∑ i, (if h : M i 0 < 0 then
            ∑ p : {k : ι // 0 < M k 0}, u' (Sum.inr (p, ⟨i, h⟩)) * (-(M i 0)⁻¹) else 0)
              * w i) := by
    rw [← Finset.sum_add_distrib, ← Finset.sum_add_distrib]
    refine Finset.sum_congr rfl (fun i _ => ?_)
    rw [fmPull]
    ring
  rw [hsplit,
    sum_dite_subtype (fun i => M i 0 = 0) (fun i h => u' (Sum.inl ⟨i, h⟩)) w,
    sum_dite_subtype (fun i => 0 < M i 0)
      (fun i h => ∑ q : {k : ι // M k 0 < 0}, u' (Sum.inr (⟨i, h⟩, q)) * (M i 0)⁻¹) w,
    sum_dite_subtype (fun i => M i 0 < 0)
      (fun i h => ∑ p : {k : ι // 0 < M k 0}, u' (Sum.inr (p, ⟨i, h⟩)) * (-(M i 0)⁻¹)) w]
  have hsecond : ∑ z : {i : ι // 0 < M i 0},
      (∑ q : {k : ι // M k 0 < 0}, u' (Sum.inr (⟨z.1, z.2⟩, q)) * (M z.1 0)⁻¹) * w z.1
      = ∑ pq : {i : ι // 0 < M i 0} × {i : ι // M i 0 < 0},
          u' (Sum.inr pq) * ((M pq.1.1 0)⁻¹ * w pq.1.1) := by
    rw [Fintype.sum_prod_type]
    refine Finset.sum_congr rfl (fun p _ => ?_)
    rw [Finset.sum_mul]
    exact Finset.sum_congr rfl (fun q _ => by ring)
  have hthird : ∑ z : {i : ι // M i 0 < 0},
      (∑ p : {k : ι // 0 < M k 0}, u' (Sum.inr (p, ⟨z.1, z.2⟩)) * (-(M z.1 0)⁻¹)) * w z.1
      = ∑ pq : {i : ι // 0 < M i 0} × {i : ι // M i 0 < 0},
          u' (Sum.inr pq) * ((-(M pq.2.1 0)⁻¹) * w pq.2.1) := by
    rw [Fintype.sum_prod_type, Finset.sum_comm]
    refine Finset.sum_congr rfl (fun q _ => ?_)
    rw [Finset.sum_mul]
    exact Finset.sum_congr rfl (fun p _ => by ring)
  rw [hsecond, hthird, add_assoc, ← Finset.sum_add_distrib]
  congr 1
  refine Finset.sum_congr rfl (fun pq _ => by ring)

/-- Contribution of the eliminated-variable-free part of row `i`. -/
def fmTail {n : ℕ} {ι : Type} (M : ι → Fin (n + 1) → ℚ) (t : Fin n → ℚ) (i : ι) : ℚ :=
  ∑ j, M i j.succ * t j

/-- Upper bound on the eliminated variable induced by a row with
positive leading coefficient. -/
def fmUb {n : ℕ} {ι : Type} (M : ι → Fin (n + 1) → ℚ) (d : ι → ℚ) (t : Fin n → ℚ)
    (p : {i : ι // 0 < M i 0}) : ℚ :=
  (M p.1 0)⁻¹ * (d p.1 - fmTail M t p.1)

/-- Lower bound on the eliminated variable induced by a row with
negative leading coefficient. -/
def fmLb {n : ℕ} {ι : Type} (M : ι → Fin (n + 1) → ℚ) (d : ι → ℚ) (t : Fin n → ℚ)
    (q : {i : ι // M i 0 < 0}) : ℚ :=
  (-(M q.1 0)⁻¹) * (fmTail M t q.1 - d q.1)

/-- Splitting a dot product along `Fin.cons`. -/
theorem dot_cons {n : ℕ} (a : Fin (n + 1) → ℚ) (x0 : ℚ) (t : Fin n → ℚ) :
    dotF a (Fin.cons x0 t) = a 0 * x0 + ∑ j, a j.succ * t j := by
  unfold dotF
  rw [Fin.sum_univ_succ]
  simp

/-- The combined row of a positive/negative pair evaluates on `t` to the
weighted sum of the two tails. -/
theorem fm_pair_eval {n : ℕ} {ι : Type} [Fintype ι] (M : ι → Fin (n + 1) → ℚ)
    (t : Fin n → ℚ) (p : {i : ι // 0 < M i 0}) (q : {i : ι // M i 0 < 0}) :
    dotF (fmM M (Sum.inr (p, q))) t
      = (M p.1 0)⁻¹ * fmTail M t p.1 + (-(M q.1 0)⁻¹) * fmTail M t q.1 := by
  unfold dotF fmM fmTail
  rw [Finset.mul_sum, Finset.mul_sum, ← Finset.sum_add_distrib]
  exact Finset.sum_congr rfl (fun j _ => by ring)

/-- Fourier–Motzkin, satisfiability direction: a solution of the reduced
system extends to a solution of the original system. -/
theorem fm_sat {n : ℕ} {ι : Type} [Fintype ι] [DecidableEq ι]
    (M : ι → Fin (n + 1) → ℚ) (d : ι → ℚ)
    (h : ∃ t : Fin n → ℚ, ∀ r, dotF (fmM M r) t ≤ fmD M d r) :
    ∃ x : Fin (n + 1) → ℚ, ∀ i, dotF (M i) x ≤ d i := by
  obtain ⟨t, ht⟩ := h
  have key : ∀ (p : {i : ι // 0 < M i 0}) (q : {i : ι // M i 0 < 0}),
      fmLb M d t q ≤ fmUb M d t p := by
    intro p q
    have hr := ht (Sum.inr (p, q))
    rw [fm_pair_eval] at hr
    have hd : fmD M d (Sum.inr (p, q))
        = (M p.1 0)⁻¹ * d p.1 + (-(M q.1 0)⁻¹) * d q.1 := rfl
    rw [hd] at hr
    unfold fmLb fmUb
    nlinarith [hr]
  obtain ⟨x0, hub, hlb⟩ : ∃ x0 : ℚ,
      (∀ p : {i : ι // 0 < M i 0}, x0 ≤ fmUb M d t p)
        ∧ (∀ q : {i : ι // M i 0 < 0}, fmLb M d t q ≤ x0) := by
    by_cases hP : Nonempty {i : ι // 0 < M i 0}
    · haveI := hP
      refine ⟨Finset.univ.inf' Finset.univ_nonempty (fmUb M d t), ?_, ?_⟩
      · exact fun p => Finset.inf'_le _ (Finset.mem_univ p)
      · exact fun q => Finset.le_inf' _ _ (fun p _ => key p q)
    · by_cases hN : Nonempty {i : ι // M i 0 < 0}
      · haveI := hN
        refine ⟨Finset.univ.sup' Finset.univ_nonempty (fmLb M d t), ?_, ?_⟩
        · exact fun p => absurd ⟨p⟩ hP
        · exact fun q => Finset.le_sup' _ (Finset.mem_univ q)
      · exact ⟨0, fun p => absurd ⟨p⟩ hP, fun q => absurd ⟨q⟩ hN⟩
  refine ⟨Fin.cons x0 t, fun i => ?_⟩
  rw [dot_cons]
  have htail : ∑ j, M i j.succ * t j = fmTail M t i := rfl
  rw [htail]
  rcases lt_trichotomy (M i 0) 0 with hneg | hzero | hpos
  · have hne : M i 0 ≠ 0 := ne_of_lt hneg
    have hq := hlb ⟨i, hneg⟩
    have hmul : M i 0 * fmLb M d t ⟨i, hneg⟩ = d i - fmTail M t i := by
      unfold fmLb
      field_simp
    nlinarith [hq, hmul, mul_le_mul_of_nonpos_left hq (le_of_lt hneg)]
  · have hz := ht (Sum.inl ⟨i, hzero⟩)
    have hlhs : dotF (fmM M (Sum.inl ⟨i, hzero⟩)) t = fmTail M t i := rfl
    have hrhs : fmD M d (Sum.inl ⟨i, hzero⟩) = d i := rfl
    rw [hlhs, hrhs] at hz
    rw [hzero]
    linarith
  · have hne : M i 0 ≠ 0 := ne_of_gt hpos
    have hp := hub ⟨i, hpos⟩
    have hmul : M i 0 * fmUb M d t ⟨i, hpos⟩ = d i - fmTail M t i := by
      unfold fmUb
      field_simp
    nlinarith [hp, hmul, mul_le_mul_of_nonneg_left hp (le_of_lt hpos)]

/-- Fourier–Motzkin, infeasibility-certificate direction: multipliers for
the reduced system pull back to multipliers for the original system. -/
theorem fm_mult {n : ℕ} {ι : Type} [Fintype ι] [DecidableEq ι]
    (M : ι → Fin (n + 1) → ℚ) (d : ι → ℚ)
    (h : ∃ u' : FmIdx M → ℚ, (∀ r, 0 ≤ u' r)
      ∧ (∀ j : Fin n, ∑ r, u' r * fmM M r j = 0) ∧ ∑ r, u' r * fmD M d r < 0) :
    ∃ u : ι → ℚ, (∀ i, 0 ≤ u i) ∧ (∀ j, ∑ i, u i * M i j = 0)
      ∧ ∑ i, u i * d i < 0 := by
  obtain ⟨u', hpos, hcol, hrhs⟩ := h
  refine ⟨fmPull M u', ?_, ?_, ?_⟩
  · intro i
    unfold fmPull
    refine add_nonneg (add_nonneg ?_ ?_) ?_
    · by_cases h0 : M i 0 = 0
      · rw [dif_pos h0]
        exact hpos _
      · rw [dif_neg h0]
    · by_cases h0 : 0 < M i 0
      · rw [dif_pos h0]
        exact Finset.sum_nonneg (fun q _ =>
          mul_nonneg (hpos _) (le_of_lt (inv_pos.2 h0)))
      · rw [dif_neg h0]
    · by_cases h0 : M i 0 < 0
      · rw [dif_pos h0]
        refine Finset.sum_nonneg (fun p _ => mul_nonneg (hpos _) ?_)
        rw [← inv_neg]
        exact le_of_lt (inv_pos.2 (by linarith))
      · rw [dif_neg h0]
  · intro j
    have htr := fm_transfer M u' (fun i => M i j)
    refine Fin.cases ?_ ?_ j
    · rw [fm_transfer M u' (fun i => M i 0)]
      have hS1 : ∑ z : {i : ι // M i 0 = 0}, u' (Sum.inl z) * M z.1 0 = 0 :=
        Finset.sum_eq_zero (fun z _ => by rw [z.2, mul_zero])
      have hS2 : ∑ pq : {i : ι // 0 < M i 0} × {i : ι // M i 0 < 0},
          u' (Sum.inr pq)
            * ((M pq.1.1 0)⁻¹ * M pq.1.1 0 + (-(M pq.2.1 0)⁻¹) * M pq.2.1 0) = 0 := by
        refine Finset.sum_eq_zero (fun pq _ => ?_)
        rw [inv_mul_cancel₀ (ne_of_gt pq.1.2), neg_mul,
          inv_mul_cancel₀ (ne_of_lt pq.2.2)]
        norm_num
      rw [hS1, hS2, add_zero]
    · intro j'
      rw [fm_transfer M u' (fun i => M i j'.succ)]
      calc (∑ z : {i : ι // M i 0 = 0}, u' (Sum.inl z) * M z.1 j'.succ)
            + ∑ pq : {i : ι // 0 < M i 0} × {i : ι // M i 0 < 0},
                u' (Sum.inr pq)
                  * ((M pq.1.1 0)⁻¹ * M pq.1.1 j'.succ
                    + (-(M pq.2.1 0)⁻¹) * M pq.2.1 j'.succ)
          = (∑ z : {i : ι // M i 0 = 0}, u' (Sum.inl z) * fmM M (Sum.inl z) j')
              + ∑ pq : {i : ι // 0 < M i 0} × {i : ι // M i 0 < 0},
                  u' (Sum.inr pq) * fmM M (Sum.inr pq) j' := rfl
        _ = ∑ r, u' r * fmM M r j' :=
            (Fintype.sum_sum_type (fun r => u' r * fmM M r j')).symm
        _ = 0 := hcol j'
  · rw [fm_transfer M u' d]
    calc (∑ z : {i : ι // M i 0 = 0}, u' (Sum.inl z) * d z.1)
          + ∑ pq : {i : ι // 0 < M i 0} × {i : ι // M i 0 < 0},
              u' (Sum.inr pq)
                * ((M pq.1.1 0)⁻¹ * d pq.1.1 + (-(M pq.2.1 0)⁻¹) * d pq.2.1)
        = (∑ z : {i : ι // M i 0 = 0}, u' (Sum.inl z) * fmD M d (Sum.inl z))
            + ∑ pq : {i : ι // 0 < M i 0} × {i : ι // M i 0 < 0},
                u' (Sum.inr pq) * fmD M d (Sum.inr pq) := rfl
      _ = ∑ r, u' r * fmD M d r :=
          (Fintype.sum_sum_type (fun r => u' r * fmD M d r)).symm
      _ < 0 := hrhs

/-- Farkas' lemma over ℚ (Fourier–Motzkin form): a finite system of
linear inequalities `M i · x ≤ d i` is either satisfiable or admits
nonnegative multipliers combining it to `0 ≤ (negative)`. -/
theorem farkas (n : ℕ) : ∀ (ι : Type) [Fintype ι] [DecidableEq ι]
    (M : ι → Fin n → ℚ) (d : ι → ℚ),
    (∃ x : Fin n → ℚ, ∀ i, dotF (M i) x ≤ d i)
      ∨ (∃ u : ι → ℚ, (∀ i, 0 ≤ u i) ∧ (∀ j, ∑ i, u i * M i j = 0)
          ∧ ∑ i, u i * d i < 0) := by
  induction n with
  | zero =>
    intro ι _ _ M d
    by_cases hd : ∀ i, 0 ≤ d i
    · left
      refine ⟨fun j => j.elim0, fun i => ?_⟩
      have hz : dotF (M i) (fun j => j.elim0) = 0 := by
        unfold dotF
        exact Finset.sum_of_isEmpty _
      rw [hz]
      exact hd i
    · right
      push_neg at hd
      obtain ⟨i₀, hi₀⟩ := hd
      refine ⟨fun i => if i = i₀ then 1 else 0, fun i => ?_, fun j => j.elim0, ?_⟩
      · dsimp only
        split
        · exact zero_le_one
        · exact le_refl 0
      · have hsum : ∑ i, (if i = i₀ then (1 : ℚ) else 0) * d i = d i₀ := by
          simp only [ite_mul, one_mul, zero_mul]
          rw [Finset.sum_ite_eq' Finset.univ i₀ d, if_pos (Finset.mem_univ i₀)]
        rw [hsum]
        exact hi₀
  | succ n ih =>
    intro ι _ _ M d
    rcases ih (FmIdx M) (fmM M) (fmD M d) with hsat | hmult
    · exact Or.inl (fm_sat M d hsat)
    · exact Or.inr (fm_mult M d hmult)

/-- Rows of the auxiliary system used to derive strong duality: dual
feasibility rows, nonnegativity rows, and the objective-level row. -/
def sdM {m n : ℕ} (a : Fin m → Fin n → ℚ) (b : Fin m → ℚ) :
    (Fin n ⊕ (Fin m ⊕ Unit)) → Fin m → ℚ
  | Sum.inl j => fun i => a i j
  | Sum.inr (Sum.inl i0) => fun i => if i = i0 then -1 else 0
  | Sum.inr (Sum.inr _) => fun i => -(b i)

/-- Right-hand sides of the auxiliary system. -/
def sdD (m : ℕ) {n : ℕ} (c : Fin n → ℚ) (v : ℚ) : (Fin n ⊕ (Fin m ⊕ Unit)) → ℚ
  | Sum.inl j => c j
  | Sum.inr (Sum.inl _) => 0
  | Sum.inr (Sum.inr _) => -v

/-- Dot product against a negated single coordinate vector. -/
theorem dot_single_neg {m : ℕ} (i0 : Fin m) (z : Fin m → ℚ) :
    dotF (fun i => if i = i0 then (-1 : ℚ) else 0) z = -(z i0) := by
  unfold dotF
  simp only [ite_mul, neg_one_mul, zero_mul]
  rw [Finset.sum_ite_eq' Finset.univ i0 (fun i => -(z i))]
  simp

/-- Dot product with an entrywise negated vector. -/
theorem dot_neg_vec {m : ℕ} (b z : Fin m → ℚ) :
    dotF (fun i => -(b i)) z = -(dotF b z) := by
  unfold dotF
  rw [← Finset.sum_neg_distrib]
  exact Finset.sum_congr rfl (fun i _ => by ring)

/-- Strong LP duality over ℚ for the natural primal/dual pair
`min c·x, A x ≥ b, x ≥ 0` and `max b·y, Aᵗ y ≤ c, y ≥ 0`: optimal values
coincide. -/
theorem lp_strong_duality {m n : ℕ} (a : Fin m → Fin n → ℚ) (b : Fin m → ℚ)
    (c : Fin n → ℚ) (x : Fin n → ℚ) (y : Fin m → ℚ)
    (hx : PrimalOptimal c a b x) (hy : DualOptimal b a c y) :
    dotF c x = dotF b y := by
  have hwd : dotF b y ≤ dotF c x := weak_duality a b c x y hx.1 hy.1
  have hge : dotF c x ≤ dotF b y := by
    rcases farkas m (Fin n ⊕ (Fin m ⊕ Unit)) (sdM a b) (sdD m c (dotF c x)) with
      ⟨z, hz⟩ | ⟨u, hu0, hucol, hurhs⟩
    · have hzfeas : DualFeasible a c z := by
        refine ⟨fun i => ?_, fun j => ?_⟩
        · have h1 : dotF (fun i' => if i' = i then (-1 : ℚ) else 0) z ≤ 0 :=
            hz (Sum.inr (Sum.inl i))
          rw [dot_single_neg] at h1
          linarith
        · exact hz (Sum.inl j)
      have hobj : dotF (fun i => -(b i)) z ≤ -(dotF c x) := hz (Sum.inr (Sum.inr ()))
      rw [dot_neg_vec] at hobj
      have hbz : dotF c x ≤ dotF b z := by linarith
      exact le_trans hbz (hy.2 z hzfeas)
    · exfalso
      have hexp : ∀ g : (Fin n ⊕ (Fin m ⊕ Unit)) → ℚ,
          ∑ r, u r * g r
            = (∑ j, u (Sum.inl j) * g (Sum.inl j))
              + ((∑ i, u (Sum.inr (Sum.inl i)) * g (Sum.inr (Sum.inl i)))
                + u (Sum.inr (Sum.inr ())) * g (Sum.inr (Sum.inr ()))) := by
        intro g
        rw [Fintype.sum_sum_type (fun r => u r * g r)]
        congr 1
        rw [Fintype.sum_sum_type (fun r => u (Sum.inr r) * g (Sum.inr r))]
        congr 1
        rw [Fintype.sum_unique]
      have hcol' : ∀ i : Fin m,
          ∑ j, u (Sum.inl j) * a i j
            = u (Sum.inr (Sum.inl i)) + u (Sum.inr (Sum.inr ())) * b i := by
        intro i
        have h := hucol i
        rw [hexp (fun r => sdM a b r i)] at h
        have hI : ∑ i' : Fin m, u (Sum.inr (Sum.inl i'))
            * sdM a b (Sum.inr (Sum.inl i')) i = -(u (Sum.inr (Sum.inl i))) := by
          have hI0 : ∑ i' : Fin m, u (Sum.inr (Sum.inl i'))
              * sdM a b (Sum.inr (Sum.inl i')) i
              = ∑ i' : Fin m, u (Sum.inr (Sum.inl i')) * (if i = i' then -1 else 0) := rfl
          rw [hI0]
          simp only [mul_ite, mul_neg_one, mul_zero]
          rw [Finset.sum_ite_eq Finset.univ i (fun i' => -(u (Sum.inr (Sum.inl i'))))]
          simp
        rw [hI] at h
        have hA : ∑ j, u (Sum.inl j) * sdM a b (Sum.inl j) i
            = ∑ j, u (Sum.inl j) * a i j := rfl
        rw [hA] at h
        have hU : u (Sum.inr (Sum.inr ())) * sdM a b (Sum.inr (Sum.inr ())) i
            = u (Sum.inr (Sum.inr ())) * (-(b i)) := rfl
        rw [hU] at h
        linarith
      have hrhs' : (∑ j, u (Sum.inl j) * c j)
          + u (Sum.inr (Sum.inr ())) * (-(dotF c x)) < 0 := by
        have h := hurhs
        rw [hexp (fun r => sdD m c (dotF c x) r)] at h
        have hI : ∑ i' : Fin m, u (Sum.inr (Sum.inl i'))
            * sdD m c (dotF c x) (Sum.inr (Sum.inl i')) = 0 := by
          refine Finset.sum_eq_zero (fun i' _ => ?_)
          have : sdD m c (dotF c x) (Sum.inr (Sum.inl i')) = 0 := rfl
          rw [this, mul_zero]
        rw [hI] at h
        have hA : ∑ j, u (Sum.inl j) * sdD m c (dotF c x) (Sum.inl j)
            = ∑ j, u (Sum.inl j) * c j := rfl
        rw [hA] at h
        have hU : u (Sum.inr (Sum.inr ())) * sdD m c (dotF c x) (Sum.inr (Sum.inr ()))
            = u (Sum.inr (Sum.inr ())) * (-(dotF c x)) := rfl
        rw [hU] at h
        linarith
      set t := u (Sum.inr (Sum.inr ())) with ht_def
      have ht0 : 0 ≤ t := hu0 (Sum.inr (Sum.inr ()))
      rcases eq_or_lt_of_le ht0 with hteq | htpos
      · -- t = 0 : x + z is feasible and strictly cheaper
        have hzc : ∑ j, u (Sum.inl j) * c j < 0 := by
          rw [← hteq] at hrhs'
          linarith
        have hfeas : PrimalFeasible a b (fun j => x j + u (Sum.inl j)) := by
          refine ⟨fun j => add_nonneg (hx.1.1 j) (hu0 (Sum.inl j)), fun i => ?_⟩
          have hsplit : dotF (a i) (fun j => x j + u (Sum.inl j))
              = dotF (a i) x + ∑ j, u (Sum.inl j) * a i j := by
            unfold dotF
            rw [← Finset.sum_add_distrib]
            exact Finset.sum_congr rfl (fun j _ => by ring)
          rw [hsplit, hcol' i, ← hteq]
          have hwi : 0 ≤ u (Sum.inr (Sum.inl i)) := hu0 (Sum.inr (Sum.inl i))
          have hbx : b i ≤ dotF (a i) x := hx.1.2 i
          linarith
        have hcost : dotF c (fun j => x j + u (Sum.inl j)) < dotF c x := by
          have hsplit : dotF c (fun j => x j + u (Sum.inl j))
              = dotF c x + ∑ j, u (Sum.inl j) * c j := by
            unfold dotF
            rw [← Finset.sum_add_distrib]
            exact Finset.sum_congr rfl (fun j _ => by ring)
          rw [hsplit]
          linarith
        exact absurd (hx.2 _ hfeas) (by linarith)
      · -- t > 0 : z / t is feasible and strictly cheaper
        have htne : t ≠ 0 := ne_of_gt htpos
        have hfeas : PrimalFeasible a b (fun j => t⁻¹ * u (Sum.inl j)) := by
          refine ⟨fun j => mul_nonneg (le_of_lt (inv_pos.2 htpos)) (hu0 (Sum.inl j)),
            fun i => ?_⟩
          have hsplit : dotF (a i) (fun j => t⁻¹ * u (Sum.inl j))
              = t⁻¹ * ∑ j, u (Sum.inl j) * a i j := by
            unfold dotF
            rw [Finset.mul_sum]
            exact Finset.sum_congr rfl (fun j _ => by ring)
          rw [hsplit, hcol' i]
          have hwi : 0 ≤ u (Sum.inr (Sum.inl i)) := hu0 (Sum.inr (Sum.inl i))
          have hinv : t⁻¹ * (t * b i) = b i := by
            field_simp
          have hmono : t⁻¹ * (t * b i) ≤ t⁻¹ * (u (Sum.inr (Sum.inl i)) + t * b i) :=
            mul_le_mul_of_nonneg_left (by linarith) (le_of_lt (inv_pos.2 htpos))
          rw [hinv] at hmono
          exact hmono
        have hcost : dotF c (fun j => t⁻¹ * u (Sum.inl j)) < dotF c x := by
          have hsplit : dotF c (fun j => t⁻¹ * u (Sum.inl j))
              = t⁻¹ * ∑ j, u (Sum.inl j) * c j := by
            unfold dotF
            rw [Finset.mul_sum]
            exact Finset.sum_congr rfl (fun j _ => by ring)
          rw [hsplit]
          have hlt : ∑ j, u (Sum.inl j) * c j < t * dotF c x := by linarith
          have hinv : t⁻¹ * (t * dotF c x) = dotF c x := by
            field_simp
          have := mul_lt_mul_of_pos_left hlt (inv_pos.2 htpos)
          rw [hinv] at this
          exact this
        exact absurd (hx.2 _ hfeas) (by linarith)
  linarith

/-- Matrix interpretation of the entrywise negated list matrix. -/
theorem matF_neg (a : List (List ℚ)) (mm nn : ℕ) :
    matF mm nn (a.map (fun row => row.map (fun c => -c)))
      = fun i j => -(matF mm nn a i j) :=
  funext (fun i => funext (fun j => getD_matrix_neg a i j))

/-- Vector interpretation of the entrywise negated list. -/
theorem vecF_neg (l : List ℚ) (mm : ℕ) :
    vecF mm (l.map (fun r => -r)) = fun i => -(vecF mm l i) :=
  funext (fun i => getD_map_neg l i)

/-- Matrix interpretation of `np.transpose` of a rectangular matrix. -/
theorem matF_npTranspose (a : List (List ℚ)) (mm nn : ℕ) (hA : a.length = mm)
    (hrect : ∀ row ∈ a, row.length = nn) :
    matF nn mm (npTranspose a) = fun j i => matF mm nn a i j := by
  funext j i
  rcases a with _ | ⟨r0, rest⟩
  · exfalso
    have h0 : mm = 0 := by simpa using hA.symm
    exact absurd i.isLt (by omega)
  · have hhead : (((r0 :: rest) : List (List ℚ)).headD []).length = nn :=
      hrect r0 (by simp)
    exact npTranspose_entry _ i j (by rw [hhead]; exact j.isLt)

/-- The generalized dual's fresh list-of-lists copy is value-equal to the
transpose. -/
theorem gdual_constraints_eq (costs requirements : List ℚ) (a : List (List ℚ)) :
    (GeneralizedDualProblem.init costs a requirements).constraints = npTranspose a := by
  show (npTranspose a).map (fun row => row.map (fun v => v)) = npTranspose a
  simp

/-- Canonical-form solver optimality of the primal constructor's data is
natural-form primal optimality. -/
theorem solverOptimal_primal_iff (a : List (List ℚ)) (b : List ℚ) (mm nn : ℕ)
    (c : Fin nn → ℚ) (x : Fin nn → ℚ) :
    SolverOptimal c (matF mm nn (a.map (fun row => row.map (fun v => -v))))
        (vecF mm (b.map (fun r => -r))) x
      ↔ PrimalOptimal c (matF mm nn a) (vecF mm b) x := by
  rw [show (a.map (fun row => row.map (fun v => -v)))
      = (a.map (fun row => row.map (fun c => -c))) from rfl, matF_neg, vecF_neg]
  unfold SolverOptimal PrimalOptimal
  constructor
  · rintro ⟨hfeas, hmin⟩
    exact ⟨(solverFeasible_neg_iff _ _ _).1 hfeas,
      fun z hz => hmin z ((solverFeasible_neg_iff _ _ _).2 hz)⟩
  · rintro ⟨hfeas, hmin⟩
    exact ⟨(solverFeasible_neg_iff _ _ _).2 hfeas,
      fun z hz => hmin z ((solverFeasible_neg_iff _ _ _).1 hz)⟩

/-- Canonical-form solver optimality of the dual constructor's data is
dual optimality (maximization of `b·y`). -/
theorem solverOptimal_dual_iff (a : List (List ℚ)) (breq : List ℚ) (bc : List ℚ)
    (mm nn : ℕ) (hA : a.length = mm) (hrect : ∀ row ∈ a, row.length = nn)
    (y : Fin mm → ℚ) :
    SolverOptimal (vecF mm (breq.map (fun r => -r))) (matF nn mm (npTranspose a))
        (vecF nn bc) y
      ↔ DualOptimal (vecF mm breq) (matF mm nn a) (vecF nn bc) y := by
  rw [vecF_neg, matF_npTranspose a mm nn hA hrect]
  unfold SolverOptimal DualOptimal
  have hfeq : SolverFeasible (fun j i => matF mm nn a i j) (vecF nn bc)
      = DualFeasible (matF mm nn a) (vecF nn bc) := rfl
  rw [hfeq]
  have hval : ∀ z : Fin mm → ℚ,
      dotF (fun i => -(vecF mm breq i)) z = -(dotF (vecF mm breq) z) :=
    fun z => dot_neg_vec _ z
  constructor
  · rintro ⟨hfeas, hmin⟩
    refine ⟨hfeas, fun z hz => ?_⟩
    have := hmin z hz
    rw [hval y, hval z] at this
    linarith
  · rintro ⟨hfeas, hmin⟩
    refine ⟨hfeas, fun z hz => ?_⟩
    have := hmin z hz
    rw [hval y, hval z]
    linarith

/-- The linprog invocation made by `GeneralizedPrimalProblem.solve`. -/
def primalCall (lp : Linprog) (costs : List ℚ) (constraints : List (List ℚ))
    (requirements : List ℚ) : LPResult :=
  lp (GeneralizedPrimalProblem.init costs constraints requirements).costs
    (GeneralizedPrimalProblem.init costs constraints requirements).constraints
    (GeneralizedPrimalProblem.init costs constraints requirements).requirements

/-- The linprog invocation made by `GeneralizedDualProblem.solve`. -/
def dualCall (lp : Linprog) (costs : List ℚ) (constraints : List (List ℚ))
    (requirements : List ℚ) : LPResult :=
  lp (GeneralizedDualProblem.init costs constraints requirements).costs
    (GeneralizedDualProblem.init costs constraints requirements).constraints
    (GeneralizedDualProblem.init costs constraints requirements).requirements

/-- The external solver behaves exactly (success with a true optimum and
exact objective value) on the primal instance built from the given
data. -/
def PrimalExact (lp : Linprog) (costs : List ℚ) (constraints : List (List ℚ))
    (requirements : List ℚ) : Prop :=
  (primalCall lp costs constraints requirements).success = true
  ∧ SolverOptimal (vecF costs.length costs)
      (matF requirements.length costs.length
        (GeneralizedPrimalProblem.init costs constraints requirements).constraints)
      (vecF requirements.length
        (GeneralizedPrimalProblem.init costs constraints requirements).requirements)
      (vecF costs.length (primalCall lp costs constraints requirements).x)
  ∧ (primalCall lp costs constraints requirements).objVal
      = dotF (vecF costs.length costs)
        (vecF costs.length (primalCall lp costs constraints requirements).x)

/-- The external solver behaves exactly on the dual instance built from
the given data. -/
def DualExact (lp : Linprog) (costs : List ℚ) (constraints : List (List ℚ))
    (requirements : List ℚ) : Prop :=
  (dualCall lp costs constraints requirements).success = true
  ∧ SolverOptimal
      (vecF requirements.length
        (GeneralizedDualProblem.init costs constraints requirements).costs)
      (matF costs.length requirements.length
        (GeneralizedDualProblem.init costs constraints requirements).constraints)
      (vecF costs.length
        (GeneralizedDualProblem.init costs constraints requirements).requirements)
      (vecF requirements.length (dualCall lp costs constraints requirements).x)
  ∧ (dualCall lp costs constraints requirements).objVal
      = dotF (vecF requirements.length
          (GeneralizedDualProblem.init costs constraints requirements).costs)
        (vecF requirements.length (dualCall lp costs constraints requirements).x)

/-- C3: for every feasible-and-bounded input (here: an input on which
the exact solver succeeds with true optima for both the primal and the
dual instance), the reported total cost and total profit satisfy
`|TotalCost - TotalProfit| < 1e-4`; in fact they are equal, by strong LP
duality applied to the formulations the constructors build. -/
theorem strong_duality_cost_equals_profit (costs requirements : List ℚ)
    (constraints : List (List ℚ)) (lp : Linprog)
    (hrect : ∀ row ∈ constraints, row.length = costs.length)
    (hlen : constraints.length = requirements.length)
    (hp : PrimalExact lp costs constraints requirements)
    (hd : DualExact lp costs constraints requirements) :
    ∃ totalCost totalProfit : ℚ,
      (GeneralizedPrimalProblem.solve lp
          (GeneralizedPrimalProblem.init costs constraints requirements)).1.2
        = some totalCost
      ∧ (GeneralizedDualProblem.solve lp
          (GeneralizedDualProblem.init costs constraints requirements)).1.2
        = some totalProfit
      ∧ |totalCost - totalProfit| < 1 / 10000 := by
  obtain ⟨hps, hpo, hpv⟩ := hp
  obtain ⟨hds, hdo, hdv⟩ := hd
  have hP : PrimalOptimal (vecF costs.length costs)
      (matF requirements.length costs.length constraints)
      (vecF requirements.length requirements)
      (vecF costs.length (primalCall lp costs constraints requirements).x) :=
    (solverOptimal_primal_iff constraints requirements requirements.length costs.length
      _ _).1 hpo
  rw [gdual_constraints_eq] at hdo
  have hD : DualOptimal (vecF requirements.length requirements)
      (matF requirements.length costs.length constraints)
      (vecF costs.length costs)
      (vecF requirements.length (dualCall lp costs constraints requirements).x) :=
    (solverOptimal_dual_iff constraints requirements costs requirements.length
      costs.length hlen hrect _).1 hdo
  have heq : dotF (vecF costs.length costs)
        (vecF costs.length (primalCall lp costs constraints requirements).x)
      = dotF (vecF requirements.length requirements)
        (vecF requirements.length (dualCall lp costs constraints requirements).x) :=
    lp_strong_duality _ _ _ _ _ hP hD
  have hsolveP : (GeneralizedPrimalProblem.solve lp
      (GeneralizedPrimalProblem.init costs constraints requirements)).1.2
      = some (primalCall lp costs constraints requirements).objVal := by
    have hps' : (lp (GeneralizedPrimalProblem.init costs constraints requirements).costs
        (GeneralizedPrimalProblem.init costs constraints requirements).constraints
        (GeneralizedPrimalProblem.init costs constraints
          requirements).requirements).success = true := hps
    rw [GeneralizedPrimalProblem.solve]
    simp only [hps']
    rfl
  have hsolveD : (GeneralizedDualProblem.solve lp
      (GeneralizedDualProblem.init costs constraints requirements)).1.2
      = some (-(dualCall lp costs constraints requirements).objVal) := by
    have hds' : (lp (GeneralizedDualProblem.init costs constraints requirements).costs
        (GeneralizedDualProblem.init costs constraints requirements).constraints
        (GeneralizedDualProblem.init costs constraints
          requirements).requirements).success = true := hds
    rw [GeneralizedDualProblem.solve]
    simp only [hds']
    rfl
  refine ⟨(primalCall lp costs constraints requirements).objVal,
    -(dualCall lp costs constraints requirements).objVal, hsolveP, hsolveD, ?_⟩
  have hdval : (dualCall lp costs constraints requirements).objVal
      = -(dotF (vecF requirements.length requirements)
          (vecF requirements.length (dualCall lp costs constraints requirements).x)) := by
    rw [hdv]
    have : vecF requirements.length
        (GeneralizedDualProblem.init costs constraints requirements).costs
        = fun i => -(vecF requirements.length requirements i) :=
      vecF_neg requirements requirements.length
    rw [this, dot_neg_vec]
  have hzero : (primalCall lp costs constraints requirements).objVal
      - (-(dualCall lp costs constraints requirements).objVal) = 0 := by
    rw [hpv, hdval]
    linarith [heq]
  rw [hzero]
  norm_num

/-- A concrete exact oracle for the 1-lot/1-requirement instance
costs `[1]`, constraints `[[1]]`, requirements `[1]`: it answers the
primal call (matrix `[[-1]]`) with `x = [1]`, value 1, and the dual call
(matrix `[[1]]`) with `y = [1]`, value -1. -/
def oneOracle : Linprog := fun _ a _ =>
  if a = [[-1]] then LPResult.mk true [1] 1 else LPResult.mk true [1] (-1)

/-- Witness for C3: the 1-lot/1-requirement instance solved by
`oneOracle`. -/
theorem strong_duality_cost_equals_profit_witness :
    ((∀ row ∈ ([[1]] : List (List ℚ)), row.length = ([1] : List ℚ).length)
      ∧ ([[1]] : List (List ℚ)).length = ([1] : List ℚ).length
      ∧ PrimalExact oneOracle [1] [[1]] [1]
      ∧ DualExact oneOracle [1] [[1]] [1])
    ∧ (∃ totalCost totalProfit : ℚ,
        (GeneralizedPrimalProblem.solve oneOracle
            (GeneralizedPrimalProblem.init [1] [[1]] [1])).1.2 = some totalCost
        ∧ (GeneralizedDualProblem.solve oneOracle
            (GeneralizedDualProblem.init [1] [[1]] [1])).1.2 = some totalProfit
        ∧ |totalCost - totalProfit| < 1 / 10000) := by
  have h1 : ∀ row ∈ ([[1]] : List (List ℚ)), row.length = ([1] : List ℚ).length := by
    decide
  have h2 : ([[1]] : List (List ℚ)).length = ([1] : List ℚ).length := rfl
  have ev : vecF 1 [1] = fun _ => (1 : ℚ) := by
    funext i
    have hi : (i : ℕ) = 0 := by omega
    simp [vecF, hi]
  have em : matF 1 1 [[1]] = fun _ _ => (1 : ℚ) := by
    funext i j
    have hi : (i : ℕ) = 0 := by omega
    have hj : (j : ℕ) = 0 := by omega
    simp [matF, hi, hj]
  have hdot : dotF (fun _ : Fin 1 => (1 : ℚ)) (fun _ => 1) = 1 := by
    simp [dotF]
  have hPfeas : PrimalFeasible (matF 1 1 [[1]]) (vecF 1 [1]) (vecF 1 [1]) := by
    rw [ev, em]
    exact ⟨fun j => zero_le_one, fun i => le_of_eq hdot.symm⟩
  have hDfeas : DualFeasible (matF 1 1 [[1]]) (vecF 1 [1]) (vecF 1 [1]) := by
    rw [ev, em]
    exact ⟨fun i => zero_le_one, fun j => le_of_eq hdot⟩
  have hveq : dotF (vecF 1 [1]) (vecF 1 [1]) = dotF (vecF 1 [1]) (vecF 1 [1]) := rfl
  have h3 : PrimalExact oneOracle [1] [[1]] [1] := by
    refine ⟨by decide, ?_, ?_⟩
    · exact (solverOptimal_primal_iff [[1]] [1] 1 1 (vecF 1 [1]) (vecF 1 [1])).2
        (cert_primal_optimal (matF 1 1 [[1]]) (vecF 1 [1]) (vecF 1 [1]) (vecF 1 [1])
          (vecF 1 [1]) hPfeas hDfeas hveq)
    · have hcall : primalCall oneOracle [1] [[1]] [1] = LPResult.mk true [1] 1 := rfl
      rw [hcall]
      show (1 : ℚ) = dotF (vecF 1 [1]) (vecF 1 [1])
      rw [ev]
      exact hdot.symm
  have h4 : DualExact oneOracle [1] [[1]] [1] := by
    refine ⟨by decide, ?_, ?_⟩
    · exact (solverOptimal_dual_iff [[1]] [1] [1] 1 1 rfl (by decide) (vecF 1 [1])).2
        (cert_dual_optimal (matF 1 1 [[1]]) (vecF 1 [1]) (vecF 1 [1]) (vecF 1 [1])
          (vecF 1 [1]) hPfeas hDfeas hveq)
    · have hcall : dualCall oneOracle [1] [[1]] [1] = LPResult.mk true [1] (-1) := rfl
      rw [hcall]
      show (-1 : ℚ)
        = dotF (vecF 1 ((GeneralizedDualProblem.init [1] [[1]] [1]).costs)) (vecF 1 [1])
      have hc : (GeneralizedDualProblem.init [1] [[1]] [1]).costs = [-1] := rfl
      rw [hc]
      have evn : vecF 1 [-1] = fun _ => (-1 : ℚ) := by
        funext i
        have hi : (i : ℕ) = 0 := by omega
        simp [vecF, hi]
      rw [evn, ev]
      simp [dotF]
  exact ⟨⟨h1, h2, h3, h4⟩,
    strong_duality_cost_equals_profit [1] [1] [[1]] oneOracle h1 h2 h3 h4⟩

/-- C8: assuming the solver contract (solution length equals objective
length, as scipy guarantees), every successful primal solve returns a
solution vector of length `len(costs)` and every successful dual solve a
price vector of length `len(requirements)`. -/
theorem solution_vector_lengths (costs requirements : List ℚ)
    (constraints : List (List ℚ)) (lp : Linprog)
    (hc1 : (lp (PrimalProblem.init costs constraints requirements).costs
        (PrimalProblem.init costs constraints requirements).constraints
        (PrimalProblem.init costs constraints requirements).requirements).x.length
      = (PrimalProblem.init costs constraints requirements).costs.length)
    (hc2 : (lp (DualProblem.init costs constraints requirements).costs
        (DualProblem.init costs constraints requirements).constraints
        (DualProblem.init costs constraints requirements).requirements).x.length
      = (DualProblem.init costs constraints requirements).costs.length)
    (hc3 : (lp (GeneralizedPrimalProblem.init costs constraints requirements).costs
        (GeneralizedPrimalProblem.init costs constraints requirements).constraints
        (GeneralizedPrimalProblem.init costs constraints requirements).requirements).x.length
      = (GeneralizedPrimalProblem.init costs constraints requirements).costs.length)
    (hc4 : (lp (GeneralizedDualProblem.init costs constraints requirements).costs
        (GeneralizedDualProblem.init costs constraints requirements).constraints
        (GeneralizedDualProblem.init costs constraints requirements).requirements).x.length
      = (GeneralizedDualProblem.init costs constraints requirements).costs.length)
    (hs1 : (lp (PrimalProblem.init costs constraints requirements).costs
        (PrimalProblem.init costs constraints requirements).constraints
        (PrimalProblem.init costs constraints requirements).requirements).success = true)
    (hs2 : (lp (DualProblem.init costs constraints requirements).costs
        (DualProblem.init costs constraints requirements).constraints
        (DualProblem.init costs constraints requirements).requirements).success = true)
    (hs3 : (lp (GeneralizedPrimalProblem.init costs constraints requirements).costs
        (GeneralizedPrimalProblem.init costs constraints requirements).constraints
        (GeneralizedPrimalProblem.init costs constraints
          requirements).requirements).success = true)
    (hs4 : (lp (GeneralizedDualProblem.init costs constraints requirements).costs
        (GeneralizedDualProblem.init costs constraints requirements).constraints
        (GeneralizedDualProblem.init costs constraints
          requirements).requirements).success = true) :
    (∃ lots, (PrimalProblem.solve lp
        (PrimalProblem.init costs constraints requirements)).1.1 = some lots
      ∧ lots.length = costs.length)
    ∧ (∃ prices, (DualProblem.solve lp
        (DualProblem.init costs constraints requirements)).1.1 = some prices
      ∧ prices.length = requirements.length)
    ∧ (∃ lots, (GeneralizedPrimalProblem.solve lp
        (GeneralizedPrimalProblem.init costs constraints requirements)).1.1 = some lots
      ∧ lots.length = costs.length)
    ∧ (∃ prices, (GeneralizedDualProblem.solve lp
        (GeneralizedDualProblem.init costs constraints requirements)).1.1 = some prices
      ∧ prices.length = requirements.length) := by
  refine ⟨⟨(lp (PrimalProblem.init costs constraints requirements).costs
      (PrimalProblem.init costs constraints requirements).constraints
      (PrimalProblem.init costs constraints requirements).requirements).x, ?_, ?_⟩,
    ⟨(lp (DualProblem.init costs constraints requirements).costs
      (DualProblem.init costs constraints requirements).constraints
      (DualProblem.init costs constraints requirements).requirements).x, ?_, ?_⟩,
    ⟨(lp (GeneralizedPrimalProblem.init costs constraints requirements).costs
      (GeneralizedPrimalProblem.init costs constraints requirements).constraints
      (GeneralizedPrimalProblem.init costs constraints requirements).requirements).x,
      ?_, ?_⟩,
    ⟨(lp (GeneralizedDualProblem.init costs constraints requirements).costs
      (GeneralizedDualProblem.init costs constraints requirements).constraints
      (GeneralizedDualProblem.init costs constraints requirements).requirements).x,
      ?_, ?_⟩⟩
  · rw [PrimalProblem.solve]
    simp only [hs1]
    rfl
  · exact hc1
  · rw [DualProblem.solve]
    simp only [hs2]
    rfl
  · rw [hc2]
    show (requirements.map (fun r => -r)).length = requirements.length
    exact List.length_map _ _
  · rw [GeneralizedPrimalProblem.solve]
    simp only [hs3]
    rfl
  · exact hc3
  · rw [GeneralizedDualProblem.solve]
    simp only [hs4]
    rfl
  · rw [hc4]
    show (requirements.map (fun r => -r)).length = requirements.length
    exact List.length_map _ _

/-- Witness for C8: an oracle echoing the objective vector as solution,
on the data costs `[1]`, constraints `[[1]]`, requirements `[1]`. -/
theorem solution_vector_lengths_witness :
    (∃ lots, (PrimalProblem.solve (fun c _ _ => LPResult.mk true c 0)
        (PrimalProblem.init [1] [[1]] [1])).1.1 = some lots
      ∧ lots.length = ([1] : List ℚ).length)
    ∧ (∃ prices, (DualProblem.solve (fun c _ _ => LPResult.mk true c 0)
        (DualProblem.init [1] [[1]] [1])).1.1 = some prices
      ∧ prices.length = ([1] : List ℚ).length)
    ∧ (∃ lots, (GeneralizedPrimalProblem.solve (fun c _ _ => LPResult.mk true c 0)
        (GeneralizedPrimalProblem.init [1] [[1]] [1])).1.1 = some lots
      ∧ lots.length = ([1] : List ℚ).length)
    ∧ (∃ prices, (GeneralizedDualProblem.solve (fun c _ _ => LPResult.mk true c 0)
        (GeneralizedDualProblem.init [1] [[1]] [1])).1.1 = some prices
      ∧ prices.length = ([1] : List ℚ).length) :=
  solution_vector_lengths [1] [1] [[1]] (fun c _ _ => LPResult.mk true c 0)
    rfl rfl rfl rfl rfl rfl rfl rfl

/-- The fixed constraint matrix of scenario 1 (Resolution/app.py,
`study_price_variation` and `main`). -/
def baseConstraints : List (List ℚ) :=
  [[500, 300, 800], [1000, 2000, 1500], [10, 20, 15], [100, 80, 15], [80, 120, 200]]

/-- The fixed requirement vector of scenario 1. -/
def baseRequirements : List ℚ := [100000, 200000, 100, 400, 400]

/-- `list(range(1, 30))`: the 29 price points of the basic sweep. -/
def priceRange : List ℚ := (List.range 29).map (fun k => (k : ℚ) + 1)

/-- The linprog invocation made by the basic sweep's primal solve at
price `p`. -/
def basicPrimalResult (lp : Linprog) (p : ℚ) : LPResult :=
  lp (PrimalProblem.init [p, 12, 15] baseConstraints baseRequirements).costs
    (PrimalProblem.init [p, 12, 15] baseConstraints baseRequirements).constraints
    (PrimalProblem.init [p, 12, 15] baseConstraints baseRequirements).requirements

/-- The linprog invocation made by the basic sweep's dual solve at
price `p`. -/
def basicDualResult (lp : Linprog) (p : ℚ) : LPResult :=
  lp (DualProblem.init [p, 12, 15] baseConstraints baseRequirements).costs
    (DualProblem.init [p, 12, 15] baseConstraints baseRequirements).constraints
    (DualProblem.init [p, 12, 15] baseConstraints baseRequirements).requirements

/-- One iteration of `study_price_variation` (Resolution/app.py): solve
the primal, record the cost (even when it is `None`), solve the dual,
then compute `profit * 1000000` and format the rows — operations that
raise a Python `TypeError` when a solve failed, modelled as
`Except.error`. -/
def sweepStep (lp : Linprog) (p : ℚ) : Except String (Option ℚ × ℚ) :=
  let pr := (PrimalProblem.solve lp
    (PrimalProblem.init [p, 12, 15] baseConstraints baseRequirements)).1
  let dr := (DualProblem.solve lp
    (DualProblem.init [p, 12, 15] baseConstraints baseRequirements)).1
  match dr.2 with
  | none => Except.error "TypeError: unsupported operand type(s) for *"
  | some profit =>
    match pr.1 with
    | none => Except.error "TypeError: NoneType object is not iterable"
    | some _ => Except.ok (pr.2, profit * 1000000)

/-- `study_price_variation` (Resolution/app.py): iterate the prices 1..29
in order accumulating the cost trajectory (raw `cost_total`, possibly
`None`) and the profit trajectory (`profit * 1000000`); a failed solve
aborts the sweep with a `TypeError`. -/
def studyPriceVariation (lp : Linprog) :
    Except String (List ℚ × List (Option ℚ) × List ℚ) :=
  (priceRange.foldlM (fun (acc : List (Option ℚ) × List ℚ) p => do
      let r ← sweepStep lp p
      pure (acc.1 ++ [r.1], acc.2 ++ [r.2])) ([], [])).map
    (fun cs : List (Option ℚ) × List ℚ => (priceRange, cs.1, cs.2))

/-- Python's `x if x else 0` applied to an optional float: `None` (and
`0.0`) become `0`. -/
def pyOrZero (v : Option ℚ) : ℚ :=
  match v with
  | none => 0
  | some x => if x = 0 then 0 else x

/-- `list(range(1, 31))`: the 30 price points of the generalized sweep. -/
def priceRangeGen : List ℚ := (List.range 30).map (fun k => (k : ℚ) + 1)

/-- `study_sensitivity` (optimisation_militaire/app.py): for each price,
copy the costs with `costs[0] = p`, solve both problems, and record
`total_cost if total_cost else 0` and `profit if profit else 0`; no
failure aborts the sweep. -/
def study_sensitivity (lp : Linprog) (costs : List ℚ) (constraints : List (List ℚ))
    (requirements : List ℚ) : List ℚ × List ℚ × List ℚ :=
  (priceRangeGen,
    priceRangeGen.map (fun p => pyOrZero ((GeneralizedPrimalProblem.solve lp
      (GeneralizedPrimalProblem.init (costs.set 0 p) constraints requirements)).1.2)),
    priceRangeGen.map (fun p => pyOrZero ((GeneralizedDualProblem.solve lp
      (GeneralizedDualProblem.init (costs.set 0 p) constraints requirements)).1.2)))

/-- An oracle on which every solve fails. -/
def failOracle : Linprog := fun _ _ _ => LPResult.mk false [] 0

/-- Indexing a mapped list within bounds, with arbitrary defaults. -/
theorem map_getD_of_lt {α β : Type} (f : α → β) (l : List α) (k : ℕ) (d : α)
    (d' : β) (h : k < l.length) : (l.map f).getD k d' = f (l.getD k d) := by
  rw [List.getD_eq_getElem _ _ (by simpa using h), List.getD_eq_getElem _ _ h,
    List.getElem_map]

/-- The generalized sweep's price list has 30 entries. -/
theorem priceRangeGen_length : priceRangeGen.length = 30 := by
  show ((List.range 30).map (fun j : ℕ => (j : ℚ) + 1)).length = 30
  rw [List.length_map, List.length_range]

/-- Entry `k` of the generalized sweep's price list is `k + 1`. -/
theorem priceRangeGen_getD (k : ℕ) (hk : k < 30) :
    priceRangeGen.getD k 0 = (k : ℚ) + 1 := by
  show ((List.range 30).map (fun j : ℕ => (j : ℚ) + 1)).getD k 0 = _
  rw [map_getD_of_lt _ _ k 0 0 (by simpa using hk),
    List.getD_eq_getElem _ _ (by simpa using hk), List.getElem_range]

/-- Counterexample to C5 as stated: under an oracle that fails at price
point 1, the basic sweep (Resolution/app.py) does not record a
zero-valued placeholder and continue — it aborts with a `TypeError`
when the failed dual profit is scaled. -/
theorem basic_sweep_crash_counterexample :
    (basicPrimalResult failOracle 1).success = false
    ∧ (basicDualResult failOracle 1).success = false
    ∧ studyPriceVariation failOracle
        = Except.error "TypeError: unsupported operand type(s) for *" :=
  ⟨rfl, rfl, rfl⟩

/-- C5 (amended): the generalized sweep records a zero-valued placeholder
for every failed solve and always completes with 30-point trajectories,
whereas the basic sweep has no such guard: any failed dual solve at a
price point makes the iteration raise (modelled as `Except.error`). -/
theorem sweep_failure_policy (lp : Linprog) (costs : List ℚ)
    (constraints : List (List ℚ)) (requirements : List ℚ) (k : ℕ) (p : ℚ)
    (hk : k < 30)
    (hfp : (lp (GeneralizedPrimalProblem.init (costs.set 0 ((k : ℚ) + 1))
        constraints requirements).costs
        (GeneralizedPrimalProblem.init (costs.set 0 ((k : ℚ) + 1))
          constraints requirements).constraints
        (GeneralizedPrimalProblem.init (costs.set 0 ((k : ℚ) + 1))
          constraints requirements).requirements).success = false)
    (hfd : (lp (GeneralizedDualProblem.init (costs.set 0 ((k : ℚ) + 1))
        constraints requirements).costs
        (GeneralizedDualProblem.init (costs.set 0 ((k : ℚ) + 1))
          constraints requirements).constraints
        (GeneralizedDualProblem.init (costs.set 0 ((k : ℚ) + 1))
          constraints requirements).requirements).success = false)
    (hbd : (lp (DualProblem.init [p, 12, 15] baseConstraints baseRequirements).costs
        (DualProblem.init [p, 12, 15] baseConstraints baseRequirements).constraints
        (DualProblem.init [p, 12, 15] baseConstraints
          baseRequirements).requirements).success = false) :
    (study_sensitivity lp costs constraints requirements).2.1.getD k 99 = 0
    ∧ (study_sensitivity lp costs constraints requirements).2.2.getD k 99 = 0
    ∧ (study_sensitivity lp costs constraints requirements).2.1.length = 30
    ∧ (study_sensitivity lp costs constraints requirements).2.2.length = 30
    ∧ ∃ msg, sweepStep lp p = Except.error msg := by
  have hkl : k < priceRangeGen.length := by rw [priceRangeGen_length]; exact hk
  refine ⟨?_, ?_, ?_, ?_, ?_⟩
  · show (priceRangeGen.map (fun p => pyOrZero ((GeneralizedPrimalProblem.solve lp
      (GeneralizedPrimalProblem.init (costs.set 0 p) constraints
        requirements)).1.2))).getD k 99 = 0
    rw [map_getD_of_lt _ _ k 0 99 hkl, priceRangeGen_getD k hk]
    show pyOrZero ((GeneralizedPrimalProblem.solve lp
      (GeneralizedPrimalProblem.init (costs.set 0 ((k : ℚ) + 1)) constraints
        requirements)).1.2) = 0
    have hsolve : (GeneralizedPrimalProblem.solve lp
        (GeneralizedPrimalProblem.init (costs.set 0 ((k : ℚ) + 1)) constraints
          requirements)).1.2 = none := by
      rw [GeneralizedPrimalProblem.solve]
      simp only [hfp]
      rfl
    rw [hsolve]
    rfl
  · show (priceRangeGen.map (fun p => pyOrZero ((GeneralizedDualProblem.solve lp
      (GeneralizedDualProblem.init (costs.set 0 p) constraints
        requirements)).1.2))).getD k 99 = 0
    rw [map_getD_of_lt _ _ k 0 99 hkl, priceRangeGen_getD k hk]
    show pyOrZero ((GeneralizedDualProblem.solve lp
      (GeneralizedDualProblem.init (costs.set 0 ((k : ℚ) + 1)) constraints
        requirements)).1.2) = 0
    have hsolve : (GeneralizedDualProblem.solve lp
        (GeneralizedDualProblem.init (costs.set 0 ((k : ℚ) + 1)) constraints
          requirements)).1.2 = none := by
      rw [GeneralizedDualProblem.solve]
      simp only [hfd]
      rfl
    rw [hsolve]
    rfl
  · show (priceRangeGen.map _).length = 30
    rw [List.length_map]
    exact priceRangeGen_length
  · show (priceRangeGen.map _).length = 30
    rw [List.length_map]
    exact priceRangeGen_length
  · refine ⟨"TypeError: unsupported operand type(s) for *", ?_⟩
    have hds : (DualProblem.solve lp
        (DualProblem.init [p, 12, 15] baseConstraints baseRequirements)).1
        = (none, none) := by
      rw [DualProblem.solve]
      simp only [hbd]
      rfl
    simp only [sweepStep, hds]

/-- Witness for the amended C5 at the failing oracle, price point 1. -/
theorem sweep_failure_policy_witness :
    (study_sensitivity failOracle [1, 12, 15] baseConstraints
        baseRequirements).2.1.getD 0 99 = 0
    ∧ (study_sensitivity failOracle [1, 12, 15] baseConstraints
        baseRequirements).2.2.getD 0 99 = 0
    ∧ (study_sensitivity failOracle [1, 12, 15] baseConstraints
        baseRequirements).2.1.length = 30
    ∧ (study_sensitivity failOracle [1, 12, 15] baseConstraints
        baseRequirements).2.2.length = 30
    ∧ ∃ msg, sweepStep failOracle 1 = Except.error msg :=
  sweep_failure_policy failOracle [1, 12, 15] baseConstraints baseRequirements 0 1
    (by norm_num) rfl rfl rfl

/-- The basic sweep's price list has 29 entries. -/
theorem priceRange_length : priceRange.length = 29 := by
  show ((List.range 29).map (fun j : ℕ => (j : ℚ) + 1)).length = 29
  rw [List.length_map, List.length_range]

/-- Entry `k` of the basic sweep's price list is `k + 1`. -/
theorem priceRange_getD (k : ℕ) (hk : k < 29) :
    priceRange.getD k 0 = (k : ℚ) + 1 := by
  show ((List.range 29).map (fun j : ℕ => (j : ℚ) + 1)).getD k 0 = _
  rw [map_getD_of_lt _ _ k 0 0 (by simpa using hk),
    List.getD_eq_getElem _ _ (by simpa using hk), List.getElem_range]

/-- A sweep iteration on which both solves succeed records the raw primal
cost and the dual profit scaled by 1000000. -/
theorem sweepStep_ok (lp : Linprog) (p : ℚ)
    (hp : (basicPrimalResult lp p).success = true)
    (hd : (basicDualResult lp p).success = true) :
    sweepStep lp p = Except.ok (some (basicPrimalResult lp p).objVal,
      -(basicDualResult lp p).objVal * 1000000) := by
  have hp' : (lp (PrimalProblem.init [p, 12, 15] baseConstraints
      baseRequirements).costs
      (PrimalProblem.init [p, 12, 15] baseConstraints baseRequirements).constraints
      (PrimalProblem.init [p, 12, 15] baseConstraints
        baseRequirements).requirements).success = true := hp
  have hd' : (lp (DualProblem.init [p, 12, 15] baseConstraints
      baseRequirements).costs
      (DualProblem.init [p, 12, 15] baseConstraints baseRequirements).constraints
      (DualProblem.init [p, 12, 15] baseConstraints
        baseRequirements).requirements).success = true := hd
  have hps : (PrimalProblem.solve lp
      (PrimalProblem.init [p, 12, 15] baseConstraints baseRequirements)).1
      = (some (basicPrimalResult lp p).x, some (basicPrimalResult lp p).objVal) := by
    rw [PrimalProblem.solve]
    simp only [hp']
    rfl
  have hds : (DualProblem.solve lp
      (DualProblem.init [p, 12, 15] baseConstraints baseRequirements)).1
      = (some (basicDualResult lp p).x, some (-(basicDualResult lp p).objVal)) := by
    rw [DualProblem.solve]
    simp only [hd']
    rfl
  simp only [sweepStep, hps, hds]

/-- Characterization of the basic sweep when every solve succeeds: it
returns the 29 prices with the parallel cost and scaled-profit
trajectories in iteration order. -/
theorem studyPriceVariation_ok (lp : Linprog)
    (h : ∀ p ∈ priceRange, (basicPrimalResult lp p).success = true
      ∧ (basicDualResult lp p).success = true) :
    studyPriceVariation lp = Except.ok (priceRange,
      priceRange.map (fun p => some (basicPrimalResult lp p).objVal),
      priceRange.map (fun p => -(basicDualResult lp p).objVal * 1000000)) := by
  have hfold : ∀ ps : List ℚ, (∀ p ∈ ps, (basicPrimalResult lp p).success = true
      ∧ (basicDualResult lp p).success = true) →
      ∀ acc : List (Option ℚ) × List ℚ,
      (ps.foldlM (fun (acc : List (Option ℚ) × List ℚ) p => do
          let r ← sweepStep lp p
          pure (acc.1 ++ [r.1], acc.2 ++ [r.2])) acc)
        = Except.ok (acc.1 ++ ps.map (fun p => some (basicPrimalResult lp p).objVal),
            acc.2 ++ ps.map (fun p => -(basicDualResult lp p).objVal * 1000000)) := by
    intro ps
    induction ps with
    | nil =>
      intro _ acc
      simp only [List.foldlM_nil, List.map_nil, List.append_nil]
      rfl
    | cons q qs ih =>
      intro hall acc
      rw [List.foldlM_cons,
        sweepStep_ok lp q (hall q (List.mem_cons_self q qs)).1
          (hall q (List.mem_cons_self q qs)).2]
      show qs.foldlM _ (acc.1 ++ [some (basicPrimalResult lp q).objVal],
        acc.2 ++ [-(basicDualResult lp q).objVal * 1000000]) = _
      rw [ih (fun p hp => hall p (List.mem_cons_of_mem q hp))]
      simp
  rw [studyPriceVariation, hfold priceRange h ([], [])]
  rfl

/-- C9: in the basic sweep (all solves succeeding), the recorded profit
entry at each price point is the dual profit scaled by 1000000 while the
recorded cost entry is the unscaled primal cost; hence whenever strong
duality holds at a point the recorded profit equals 1000000 times the
recorded cost — the two plotted trajectories are in different units. -/
theorem basic_sweep_profit_scaling (lp : Linprog)
    (h : ∀ p ∈ priceRange, (basicPrimalResult lp p).success = true
      ∧ (basicDualResult lp p).success = true)
    (k : ℕ) (hk : k < 29) :
    ∃ pr cs ps, studyPriceVariation lp = Except.ok (pr, cs, ps)
      ∧ ps.getD k 0 = -(basicDualResult lp ((k : ℚ) + 1)).objVal * 1000000
      ∧ cs.getD k none = some ((basicPrimalResult lp ((k : ℚ) + 1)).objVal)
      ∧ (-(basicDualResult lp ((k : ℚ) + 1)).objVal
            = (basicPrimalResult lp ((k : ℚ) + 1)).objVal
          → ps.getD k 0 = 1000000 * (basicPrimalResult lp ((k : ℚ) + 1)).objVal) := by
  have hkl : k < priceRange.length := by rw [priceRange_length]; exact hk
  refine ⟨priceRange, _, _, studyPriceVariation_ok lp h, ?_, ?_, ?_⟩
  · rw [map_getD_of_lt _ _ k 0 0 hkl, priceRange_getD k hk]
  · rw [map_getD_of_lt _ _ k 0 none hkl, priceRange_getD k hk]
  · intro heq
    rw [map_getD_of_lt _ _ k 0 0 hkl, priceRange_getD k hk]
    show -(basicDualResult lp ((k : ℚ) + 1)).objVal * 1000000 = _
    rw [heq]
    ring

/-- Witness for C9: a constant-success oracle, price point 1. -/
theorem basic_sweep_profit_scaling_witness :
    ∃ pr cs ps, studyPriceVariation (fun c _ _ => LPResult.mk true c 7)
        = Except.ok (pr, cs, ps)
      ∧ ps.getD 0 0 = -(basicDualResult (fun c _ _ => LPResult.mk true c 7)
          (((0 : ℕ) : ℚ) + 1)).objVal * 1000000
      ∧ cs.getD 0 none = some ((basicPrimalResult (fun c _ _ => LPResult.mk true c 7)
          (((0 : ℕ) : ℚ) + 1)).objVal)
      ∧ (-(basicDualResult (fun c _ _ => LPResult.mk true c 7)
            (((0 : ℕ) : ℚ) + 1)).objVal
          = (basicPrimalResult (fun c _ _ => LPResult.mk true c 7)
              (((0 : ℕ) : ℚ) + 1)).objVal
        → ps.getD 0 0 = 1000000 * (basicPrimalResult (fun c _ _ => LPResult.mk true c 7)
            (((0 : ℕ) : ℚ) + 1)).objVal) :=
  basic_sweep_profit_scaling (fun c _ _ => LPResult.mk true c 7)
    (fun p _ => ⟨rfl, rfl⟩) 0 (by norm_num)

/-- Dot product over three coordinates, expanded. -/
theorem dotF_three (u v : Fin 3 → ℚ) : dotF u v = u 0 * v 0 + u 1 * v 1 + u 2 * v 2 :=
  Fin.sum_univ_three _

/-- Dot product over five coordinates, expanded. -/
theorem dotF_five (u v : Fin 5 → ℚ) :
    dotF u v = u 0 * v 0 + u 1 * v 1 + u 2 * v 2 + u 3 * v 3 + u 4 * v 4 :=
  Fin.sum_univ_five _

/-- Raising the price of lot 1 can only raise the value of the sweep's
objective vector on a nonnegative point. -/
theorem sweep_cost_monotone_step (a b : ℚ) (hab : a ≤ b) (x : Fin 3 → ℚ)
    (hx : ∀ i, 0 ≤ x i) :
    dotF (vecF 3 [a, 12, 15]) x ≤ dotF (vecF 3 [b, 12, 15]) x := by
  rw [dotF_three, dotF_three]
  have h0a : vecF 3 [a, 12, 15] 0 = a := rfl
  have h0b : vecF 3 [b, 12, 15] 0 = b := rfl
  have h1a : vecF 3 [a, 12, 15] 1 = 12 := rfl
  have h1b : vecF 3 [b, 12, 15] 1 = 12 := rfl
  have h2a : vecF 3 [a, 12, 15] 2 = 15 := rfl
  have h2b : vecF 3 [b, 12, 15] 2 = 15 := rfl
  rw [h0a, h0b, h1a, h1b, h2a, h2b]
  have := mul_le_mul_of_nonneg_right hab (hx 0)
  linarith

/-- C7: when the solver succeeds exactly (true optima) at every price
point, the basic sweep over prices 1..29 returns price, cost and profit
trajectories of exactly 29 points each, the prices are 1,2,...,29 in
ascending order with the trajectory entries in the same order, and the
cost trajectory is non-decreasing in the price (in particular after the
binding constraint saturates). -/
theorem sweep_29_points_ascending_monotone (lp : Linprog)
    (hall : ∀ p ∈ priceRange, (basicPrimalResult lp p).success = true
      ∧ (basicDualResult lp p).success = true)
    (hopt : ∀ p ∈ priceRange, SolverOptimal (vecF 3 [p, 12, 15])
      (matF 5 3 (PrimalProblem.init [p, 12, 15] baseConstraints
        baseRequirements).constraints)
      (vecF 5 (PrimalProblem.init [p, 12, 15] baseConstraints
        baseRequirements).requirements)
      (vecF 3 (basicPrimalResult lp p).x))
    (hval : ∀ p ∈ priceRange, (basicPrimalResult lp p).objVal
      = dotF (vecF 3 [p, 12, 15]) (vecF 3 (basicPrimalResult lp p).x)) :
    ∃ pr cs ps, studyPriceVariation lp = Except.ok (pr, cs, ps)
      ∧ pr.length = 29 ∧ cs.length = 29 ∧ ps.length = 29
      ∧ (∀ k : ℕ, k < 29 → pr.getD k 0 = (k : ℚ) + 1)
      ∧ (∀ k : ℕ, k < 29 →
          cs.getD k none = some ((basicPrimalResult lp ((k : ℚ) + 1)).objVal)
          ∧ ps.getD k 0 = -(basicDualResult lp ((k : ℚ) + 1)).objVal * 1000000)
      ∧ (∀ k l : ℕ, k ≤ l → l < 29 →
          (basicPrimalResult lp ((k : ℚ) + 1)).objVal
            ≤ (basicPrimalResult lp ((l : ℚ) + 1)).objVal) := by
  have hmem : ∀ k : ℕ, k < 29 → ((k : ℚ) + 1) ∈ priceRange := by
    intro k hk
    show ((k : ℚ) + 1) ∈ (List.range 29).map (fun j : ℕ => (j : ℚ) + 1)
    exact List.mem_map.2 ⟨k, List.mem_range.2 hk, rfl⟩
  have hopt' : ∀ p ∈ priceRange, PrimalOptimal (vecF 3 [p, 12, 15])
      (matF 5 3 baseConstraints) (vecF 5 baseRequirements)
      (vecF 3 (basicPrimalResult lp p).x) := by
    intro p hp
    exact (solverOptimal_primal_iff baseConstraints baseRequirements 5 3
      (vecF 3 [p, 12, 15]) (vecF 3 (basicPrimalResult lp p).x)).1 (hopt p hp)
  refine ⟨priceRange, _, _, studyPriceVariation_ok lp hall, priceRange_length,
    by rw [List.length_map]; exact priceRange_length,
    by rw [List.length_map]; exact priceRange_length, ?_, ?_, ?_⟩
  · intro k hk
    exact priceRange_getD k hk
  · intro k hk
    have hkl : k < priceRange.length := by rw [priceRange_length]; exact hk
    constructor
    · rw [map_getD_of_lt _ _ k 0 none hkl, priceRange_getD k hk]
    · rw [map_getD_of_lt _ _ k 0 0 hkl, priceRange_getD k hk]
  · intro k l hkl hl29
    have hkm := hmem k (lt_of_le_of_lt hkl hl29)
    have hlm := hmem l hl29
    have hko := hopt' _ hkm
    have hlo := hopt' _ hlm
    calc (basicPrimalResult lp ((k : ℚ) + 1)).objVal
        = dotF (vecF 3 [(k : ℚ) + 1, 12, 15])
            (vecF 3 (basicPrimalResult lp ((k : ℚ) + 1)).x) := hval _ hkm
      _ ≤ dotF (vecF 3 [(k : ℚ) + 1, 12, 15])
            (vecF 3 (basicPrimalResult lp ((l : ℚ) + 1)).x) := hko.2 _ hlo.1
      _ ≤ dotF (vecF 3 [(l : ℚ) + 1, 12, 15])
            (vecF 3 (basicPrimalResult lp ((l : ℚ) + 1)).x) :=
          sweep_cost_monotone_step _ _
            (by exact_mod_cast add_le_add_right (Nat.cast_le.2 hkl) 1) _ hlo.1.1
      _ = (basicPrimalResult lp ((l : ℚ) + 1)).objVal := (hval _ hlm).symm

/-- Exact primal optimum of scenario 1 as a function of the lot-1 price:
for `p ≤ 9` buy 200 units of lot 1; for `p ≥ 10` buy lots 2 and 3. -/
def primalSol (p : ℚ) : List ℚ × ℚ :=
  if p ≤ 9 then ([200, 0, 0], p * 200)
  else ([0, 200 / 23, 2800 / 23], 44400 / 23)

/-- Exact dual optimum of scenario 1 as a function of the lot-1 price. -/
def dualSol (p : ℚ) : List ℚ × ℚ :=
  if p ≤ 9 then ([p / 500, 0, 0, 0, 0], -(p * 200))
  else ([6 / 575, 51 / 11500, 0, 0, 0], -(44400 / 23))

/-- An exact oracle for the basic sweep's instances: primal calls are
recognized by their 5-row matrix, dual calls by their 3-row matrix. -/
def sweepOracle : Linprog := fun c a b =>
  if a.length = 5 then
    LPResult.mk true (primalSol (c.headD 0)).1 (primalSol (c.headD 0)).2
  else
    LPResult.mk true (dualSol (b.headD 0)).1 (dualSol (b.headD 0)).2

/-- The sweep oracle's answer to the primal instance at price `p`. -/
theorem basicPrimal_sweepOracle (p : ℚ) :
    basicPrimalResult sweepOracle p
      = LPResult.mk true (primalSol p).1 (primalSol p).2 := by
  have hlen : (PrimalProblem.init [p, 12, 15] baseConstraints
      baseRequirements).constraints.length = 5 := rfl
  unfold basicPrimalResult sweepOracle
  rw [if_pos hlen]
  rfl

/-- The sweep oracle's answer to the dual instance at price `p`. -/
theorem basicDual_sweepOracle (p : ℚ) :
    basicDualResult sweepOracle p
      = LPResult.mk true (dualSol p).1 (dualSol p).2 := by
  have hlen : ¬((DualProblem.init [p, 12, 15] baseConstraints
      baseRequirements).constraints.length = 5) := by
    intro h
    have h3 : (DualProblem.init [p, 12, 15] baseConstraints
        baseRequirements).constraints.length = 3 := rfl
    omega
  unfold basicDualResult sweepOracle
  rw [if_neg hlen]
  rfl

/-- For `0 ≤ p ≤ 9`, buying 200 units of lot 1 is an exact primal
optimum of scenario 1 (certified by the dual point `[p/500, 0, 0, 0, 0]`). -/
theorem primal_low_opt (p : ℚ) (h0 : 0 ≤ p) (h9 : p ≤ 9) :
    PrimalOptimal (vecF 3 [p, 12, 15]) (matF 5 3 baseConstraints)
      (vecF 5 baseRequirements) (vecF 3 [200, 0, 0]) := by
  apply cert_primal_optimal _ _ _ _ (vecF 5 [p / 500, 0, 0, 0, 0])
  · constructor
    · intro j
      fin_cases j <;> norm_num [vecF]
    · intro i
      fin_cases i <;>
        · rw [dotF_three]
          norm_num [matF, vecF, baseConstraints, baseRequirements]
  · constructor
    · intro i
      fin_cases i
      · show (0 : ℚ) ≤ p / 500
        positivity
      · exact le_refl 0
      · exact le_refl 0
      · exact le_refl 0
      · exact le_refl 0
    · intro j
      fin_cases j
      · rw [dotF_five]
        show 500 * (p / 500) + 1000 * 0 + 10 * 0 + 100 * 0 + 80 * 0 ≤ p
        ring_nf
        linarith
      · rw [dotF_five]
        show 300 * (p / 500) + 2000 * 0 + 20 * 0 + 80 * 0 + 120 * 0 ≤ 12
        linarith
      · rw [dotF_five]
        show 800 * (p / 500) + 1500 * 0 + 15 * 0 + 15 * 0 + 200 * 0 ≤ 15
        linarith
  · rw [dotF_three, dotF_five]
    show p * 200 + 12 * 0 + 15 * 0
      = 100000 * (p / 500) + 200000 * 0 + 100 * 0 + 400 * 0 + 400 * 0
    ring

/-- For `10 ≤ p`, buying lots 2 and 3 only is an exact primal optimum of
scenario 1 (certified by the dual point `[6/575, 51/11500, 0, 0, 0]`). -/
theorem primal_high_opt (p : ℚ) (h10 : 10 ≤ p) :
    PrimalOptimal (vecF 3 [p, 12, 15]) (matF 5 3 baseConstraints)
      (vecF 5 baseRequirements) (vecF 3 [0, 200 / 23, 2800 / 23]) := by
  apply cert_primal_optimal _ _ _ _ (vecF 5 [6 / 575, 51 / 11500, 0, 0, 0])
  · constructor
    · intro j
      fin_cases j <;> norm_num [vecF]
    · intro i
      fin_cases i
      · rw [dotF_three]
        show (100000 : ℚ) ≤ 500 * 0 + 300 * (200 / 23) + 800 * (2800 / 23)
        norm_num
      · rw [dotF_three]
        show (200000 : ℚ) ≤ 1000 * 0 + 2000 * (200 / 23) + 1500 * (2800 / 23)
        norm_num
      · rw [dotF_three]
        show (100 : ℚ) ≤ 10 * 0 + 20 * (200 / 23) + 15 * (2800 / 23)
        norm_num
      · rw [dotF_three]
        show (400 : ℚ) ≤ 100 * 0 + 80 * (200 / 23) + 15 * (2800 / 23)
        norm_num
      · rw [dotF_three]
        show (400 : ℚ) ≤ 80 * 0 + 120 * (200 / 23) + 200 * (2800 / 23)
        norm_num
  · constructor
    · intro i
      fin_cases i <;> norm_num [vecF]
    · intro j
      fin_cases j
      · rw [dotF_five]
        show 500 * (6 / 575 : ℚ) + 1000 * (51 / 11500) + 10 * 0 + 100 * 0 + 80 * 0 ≤ p
        have h222 : 500 * (6 / 575 : ℚ) + 1000 * (51 / 11500) + 10 * 0 + 100 * 0
            + 80 * 0 = 222 / 23 := by norm_num
        rw [h222]
        have hlt : (222 : ℚ) / 23 ≤ 10 := by norm_num
        linarith
      · rw [dotF_five]
        show 300 * (6 / 575 : ℚ) + 2000 * (51 / 11500) + 20 * 0 + 80 * 0 + 120 * 0 ≤ 12
        norm_num
      · rw [dotF_five]
        show 800 * (6 / 575 : ℚ) + 1500 * (51 / 11500) + 15 * 0 + 15 * 0 + 200 * 0 ≤ 15
        norm_num
  · rw [dotF_three, dotF_five]
    show p * 0 + 12 * (200 / 23) + 15 * (2800 / 23)
      = 100000 * (6 / 575) + 200000 * (51 / 11500) + 100 * 0 + 400 * 0 + 400 * 0
    ring_nf

/-- Every basic-sweep price is nonnegative and falls in one of the two
optimum regimes. -/
theorem priceRange_regimes (p : ℚ) (hp : p ∈ priceRange) :
    0 ≤ p ∧ (p ≤ 9 ∨ 10 ≤ p) := by
  have hp' : p ∈ (List.range 29).map (fun j : ℕ => (j : ℚ) + 1) := hp
  obtain ⟨k, _, hpe⟩ := List.mem_map.1 hp'
  have hpk : (k : ℚ) + 1 = p := hpe
  have hk0 : (0 : ℚ) ≤ (k : ℚ) := Nat.cast_nonneg k
  refine ⟨by linarith, ?_⟩
  rcases le_or_lt k 8 with h8 | h8
  · left
    have : (k : ℚ) ≤ 8 := by exact_mod_cast h8
    linarith
  · right
    have : (9 : ℚ) ≤ (k : ℚ) := by exact_mod_cast h8
    linarith

/-- Witness for C7: the basic sweep driven by the exact oracle
`sweepOracle`. -/
theorem sweep_29_points_ascending_monotone_witness :
    ∃ pr cs ps, studyPriceVariation sweepOracle = Except.ok (pr, cs, ps)
      ∧ pr.length = 29 ∧ cs.length = 29 ∧ ps.length = 29
      ∧ (∀ k : ℕ, k < 29 → pr.getD k 0 = (k : ℚ) + 1)
      ∧ (∀ k : ℕ, k < 29 →
          cs.getD k none
            = some ((basicPrimalResult sweepOracle ((k : ℚ) + 1)).objVal)
          ∧ ps.getD k 0
            = -(basicDualResult sweepOracle ((k : ℚ) + 1)).objVal * 1000000)
      ∧ (∀ k l : ℕ, k ≤ l → l < 29 →
          (basicPrimalResult sweepOracle ((k : ℚ) + 1)).objVal
            ≤ (basicPrimalResult sweepOracle ((l : ℚ) + 1)).objVal) := by
  have hall : ∀ p ∈ priceRange, (basicPrimalResult sweepOracle p).success = true
      ∧ (basicDualResult sweepOracle p).success = true := by
    intro p _
    exact ⟨by rw [basicPrimal_sweepOracle], by rw [basicDual_sweepOracle]⟩
  have hopt : ∀ p ∈ priceRange, SolverOptimal (vecF 3 [p, 12, 15])
      (matF 5 3 (PrimalProblem.init [p, 12, 15] baseConstraints
        baseRequirements).constraints)
      (vecF 5 (PrimalProblem.init [p, 12, 15] baseConstraints
        baseRequirements).requirements)
      (vecF 3 (basicPrimalResult sweepOracle p).x) := by
    intro p hp
    obtain ⟨hp0, hcase⟩ := priceRange_regimes p hp
    apply (solverOptimal_primal_iff baseConstraints baseRequirements 5 3 _ _).2
    rcases hcase with h9 | h10
    · have hx : (basicPrimalResult sweepOracle p).x = [200, 0, 0] := by
        rw [basicPrimal_sweepOracle]
        show (primalSol p).1 = _
        rw [primalSol, if_pos h9]
      rw [hx]
      exact primal_low_opt p hp0 h9
    · have hx : (basicPrimalResult sweepOracle p).x = [0, 200 / 23, 2800 / 23] := by
        rw [basicPrimal_sweepOracle]
        show (primalSol p).1 = _
        rw [primalSol, if_neg (by linarith)]
      rw [hx]
      exact primal_high_opt p h10
  have hval : ∀ p ∈ priceRange, (basicPrimalResult sweepOracle p).objVal
      = dotF (vecF 3 [p, 12, 15]) (vecF 3 (basicPrimalResult sweepOracle p).x) := by
    intro p hp
    obtain ⟨hp0, hcase⟩ := priceRange_regimes p hp
    rcases hcase with h9 | h10
    · rw [basicPrimal_sweepOracle, primalSol, if_pos h9]
      rw [dotF_three]
      show p * 200 = p * 200 + 12 * 0 + 15 * 0
      ring
    · rw [basicPrimal_sweepOracle, primalSol, if_neg (by linarith)]
      rw [dotF_three]
      show (44400 / 23 : ℚ) = p * 0 + 12 * (200 / 23) + 15 * (2800 / 23)
      ring_nf
  exact sweep_29_points_ascending_monotone sweepOracle hall hopt hval
